import Mathlib

/-!
Shallow embedding of the ORM-Data-Sync-Process repository
(`src/etl.py`, `src/models.py`) in Lean 4, together with proofs about the
claims of its specification.

Modelling conventions (used uniformly below):
* `datetime.datetime` timestamps are modelled as `Nat`, with
  `datetime.datetime.min` mapped to `0`.
* `datetime.datetime.now()` is modelled as an explicit `now : Nat`
  parameter, constant within one synchronizer call (the code reads the
  wall clock several times per call; the distinctions the claims draw —
  wall-clock time versus source-side `last_update` values — survive this
  abstraction).
* `datetime.date` is modelled by the `Date` structure below together with
  the proleptic Gregorian rules that `datetime` implements (`weekday()`
  with Monday = 0, `strftime('%Y%m%d')` as `year*10000 + month*100 + day`,
  `+= timedelta(days=1)` as `Date.nextDay`).
* A SQLAlchemy session against one store is modelled as an explicit state
  value (`Source`, `Target`); every table is a list of row structures in
  insertion order.  `query(...).first()` is a first-match search,
  in-place mutation of a fetched ORM row rewrites the matched element in
  place, `session.add` appends, `commit`/`flush` have no further effect in
  this sequential model.
* SQLite `INTEGER PRIMARY KEY` autoincrement allocation is modelled as
  `max(existing keys) + 1` (1 on an empty table), as SQLite allocates
  rowids for these tables.
* `DECIMAL`/`float` monetary amounts are modelled as `Rat`; the claims
  about them only involve sums and comparison against the 0.01 tolerance.
* Python dictionaries built by `{k: v for ...}` keep the *last* binding
  of a duplicated key; `dict.get` is `dictGet` below.  Python truthiness
  of `Optional[int]` (`if f_key and a_key:`) is `pyTruthy`.
-/

set_option linter.unusedVariables false

namespace ORMSync

/-! ## Dates (`datetime.date`, used by `load_dim_date` and `generate_date_key`) -/

structure Date where
  year : Nat
  month : Nat
  day : Nat
deriving DecidableEq

/-- Gregorian leap-year rule, as implemented by `calendar`/`datetime`. -/
def isLeapYear (y : Nat) : Bool :=
  (y % 4 == 0 && y % 100 != 0) || (y % 400 == 0)

def daysInMonth (y m : Nat) : Nat :=
  if m = 2 then (if isLeapYear y then 29 else 28)
  else if m = 4 ∨ m = 6 ∨ m = 9 ∨ m = 11 then 30
  else 31

/-- Days in the years `1 .. y-1` (proleptic Gregorian), as in
`datetime.date.toordinal`. -/
def daysBeforeYear (y : Nat) : Nat :=
  365 * (y - 1) + (y - 1) / 4 + (y - 1) / 400 - (y - 1) / 100

def daysBeforeMonth (y : Nat) : Nat → Nat
  | 0 => 0
  | 1 => 0
  | m + 2 => daysBeforeMonth y (m + 1) + daysInMonth y (m + 1)

/-- `datetime.date.toordinal`: 0001-01-01 is day 1. -/
def Date.toOrd (d : Date) : Nat :=
  daysBeforeYear d.year + daysBeforeMonth d.year d.month + d.day

/-- `datetime.date.weekday()`: Monday = 0 .. Sunday = 6; ordinal 1
(0001-01-01) is a Monday.  `(toOrd + 6) % 7` equals `(toOrd - 1) % 7`
for every ordinal ≥ 1 and avoids truncated subtraction. -/
def Date.dayOfWeek (d : Date) : Nat := (d.toOrd + 6) % 7

/-- `int(d.strftime('%Y%m%d'))` for the 4-digit years the program uses. -/
def Date.key (d : Date) : Nat := d.year * 10000 + d.month * 100 + d.day

/-- `current_date += datetime.timedelta(days=1)`. -/
def Date.nextDay (d : Date) : Date :=
  if d.day < daysInMonth d.year d.month then ⟨d.year, d.month, d.day + 1⟩
  else if d.month < 12 then ⟨d.year, d.month + 1, 1⟩
  else ⟨d.year + 1, 1, 1⟩

/-- Python's `date <= date` comparison (tuple-lexicographic). -/
def Date.leb (a b : Date) : Bool :=
  a.year < b.year ||
    (a.year == b.year &&
      (a.month < b.month || (a.month == b.month && a.day ≤ b.day)))

/-- The dates `datetime.date` can actually represent. -/
def Date.valid (d : Date) : Prop :=
  1 ≤ d.year ∧ 1 ≤ d.month ∧ d.month ≤ 12 ∧ 1 ≤ d.day ∧
    d.day ≤ daysInMonth d.year d.month

instance (d : Date) : Decidable d.valid := by unfold Date.valid; infer_instance

/-- A `datetime.datetime`: a calendar date plus seconds within the day. -/
structure DateTime where
  date : Date
  tod : Nat
deriving DecidableEq

def DateTime.secs (t : DateTime) : Nat := t.date.toOrd * 86400 + t.tod

/-- `(later - earlier).days` for two datetimes (`timedelta.days` floors). -/
def timedeltaDays (later earlier : DateTime) : Int :=
  Int.fdiv ((later.secs : Int) - (earlier.secs : Int)) 86400

/-- `generate_date_key` (src/etl.py:17-21): `None` maps to `None`,
otherwise the integer `YYYYMMDD` encoding. -/
def generate_date_key : Option DateTime → Option Nat
  | none => none
  | some dt => some dt.date.key

/-! ## Source (Sakila, MySQL) rows — reflected classes in src/models.py -/

structure SakilaFilmRow where
  film_id : Nat
  title : String
  rating : String
  length : Nat
  last_update : Nat
deriving DecidableEq

structure SakilaCustomerRow where
  customer_id : Nat
  address_id : Nat
  first_name : String
  last_name : String
  email : String
  active : Nat
  last_update : Nat
deriving DecidableEq

structure SakilaAddressRow where
  address_id : Nat
  city_id : Nat
deriving DecidableEq

structure SakilaCityRow where
  city_id : Nat
  country_id : Nat
  city : String
deriving DecidableEq

structure SakilaCountryRow where
  country_id : Nat
  country : String
deriving DecidableEq

structure SakilaStoreRow where
  store_id : Nat
  address_id : Nat
  last_update : Nat
deriving DecidableEq

structure SakilaActorRow where
  actor_id : Nat
  first_name : String
  last_name : String
  last_update : Nat
deriving DecidableEq

structure SakilaCategoryRow where
  category_id : Nat
  name : String
  last_update : Nat
deriving DecidableEq

structure SakilaFilmActorRow where
  film_id : Nat
  actor_id : Nat
deriving DecidableEq

structure SakilaFilmCategoryRow where
  film_id : Nat
  category_id : Nat
deriving DecidableEq

structure SakilaInventoryRow where
  inventory_id : Nat
  film_id : Nat
deriving DecidableEq

structure SakilaRentalRow where
  rental_id : Nat
  inventory_id : Nat
  customer_id : Nat
  staff_id : Nat
  rental_date : DateTime
  return_date : Option DateTime
  last_update : Nat
deriving DecidableEq

structure SakilaStaffRow where
  staff_id : Nat
  store_id : Nat
deriving DecidableEq

structure SakilaPaymentRow where
  payment_id : Nat
  customer_id : Nat
  staff_id : Nat
  amount : Rat
  payment_date : DateTime
  last_update : Nat
deriving DecidableEq

/-- The read-only source store (one list per reflected Sakila table). -/
structure Source where
  films : List SakilaFilmRow
  customers : List SakilaCustomerRow
  addresses : List SakilaAddressRow
  cities : List SakilaCityRow
  countries : List SakilaCountryRow
  stores : List SakilaStoreRow
  actors : List SakilaActorRow
  categories : List SakilaCategoryRow
  film_actors : List SakilaFilmActorRow
  film_categories : List SakilaFilmCategoryRow
  inventories : List SakilaInventoryRow
  rentals : List SakilaRentalRow
  staffs : List SakilaStaffRow
  payments : List SakilaPaymentRow
deriving DecidableEq

/-! ## Target (analytics, SQLite) rows — declared classes in src/models.py -/

structure DimDateRow where
  date_key : Nat
  date : Date
  year : Nat
  quarter : Nat
  month : Nat
  day_of_month : Nat
  day_of_week : Nat
  is_weekend : Bool
deriving DecidableEq

structure DimFilmRow where
  film_key : Nat
  film_id : Nat
  title : String
  rating : String
  length : Nat
  language : Option String
  release_year : Option Nat
  last_update : Nat
deriving DecidableEq

structure DimCustomerRow where
  customer_key : Nat
  customer_id : Nat
  first_name : String
  last_name : String
  email : String
  active : Nat
  city : String
  country : String
  last_update : Nat
deriving DecidableEq

structure DimStoreRow where
  store_key : Nat
  store_id : Nat
  city : String
  country : String
  last_update : Nat
deriving DecidableEq

structure DimActorRow where
  actor_key : Nat
  actor_id : Nat
  first_name : String
  last_name : String
  last_update : Nat
deriving DecidableEq

structure DimCategoryRow where
  category_key : Nat
  category_id : Nat
  name : String
  last_update : Nat
deriving DecidableEq

structure BridgeFilmActorRow where
  film_key : Nat
  actor_key : Nat
deriving DecidableEq

structure BridgeFilmCategoryRow where
  film_key : Nat
  category_key : Nat
deriving DecidableEq

structure FactRentalRow where
  fact_rental_key : Nat
  rental_id : Nat
  date_key_rented : Option Nat
  date_key_returned : Option Nat
  film_key : Option Nat
  store_key : Option Nat
  customer_key : Option Nat
  staff_id : Nat
  rental_duration_days : Int
  last_update : Nat
deriving DecidableEq

structure FactPaymentRow where
  fact_payment_key : Nat
  payment_id : Nat
  date_key_paid : Option Nat
  customer_key : Option Nat
  store_key : Option Nat
  staff_id : Nat
  amount : Rat
  last_update : Nat
deriving DecidableEq

structure SyncStateRow where
  table_name : String
  last_sync_timestamp : Nat
deriving DecidableEq

/-- The target store: one list per declared table, in insertion order. -/
structure Target where
  dim_date : List DimDateRow
  dim_film : List DimFilmRow
  dim_customer : List DimCustomerRow
  dim_store : List DimStoreRow
  dim_actor : List DimActorRow
  dim_category : List DimCategoryRow
  bridge_film_actor : List BridgeFilmActorRow
  bridge_film_category : List BridgeFilmCategoryRow
  fact_rental : List FactRentalRow
  fact_payment : List FactPaymentRow
  sync_state : List SyncStateRow
deriving DecidableEq

def emptyTarget : Target := ⟨[], [], [], [], [], [], [], [], [], [], []⟩

def emptySource : Source := ⟨[], [], [], [], [], [], [], [], [], [], [], [], [], []⟩

/-! ## Generic helpers -/

/-- Rewrite the first element satisfying `p` in place (how mutating the
row object returned by `query(...).first()` behaves). -/
def updateFirstBy (p : α → Bool) (f : α → α) : List α → List α
  | [] => []
  | x :: xs => if p x then f x :: xs else x :: updateFirstBy p f xs

/-- SQLite rowid allocation for an `INTEGER PRIMARY KEY` column:
`max(existing) + 1`, so `1` on an empty table. -/
def nextAutoKey (keys : List Nat) : Nat := keys.foldr Nat.max 0 + 1

/-- Lookup in a Python dict built by `{row[0]: row[1] for row in results}`
(last binding of a duplicated key wins) followed by `.get(k)`. -/
def dictGet (m : List (Nat × Nat)) (k : Nat) : Option Nat :=
  (m.reverse.find? (fun p => p.1 == k)).map (fun p => p.2)

/-- Python truthiness of an `Optional[int]`: `None` and `0` are falsy. -/
def pyTruthy : Option Nat → Bool
  | none => false
  | some n => n != 0

/-- The generic upsert step shared by every synchronizer loop:
look up an existing row (`query(...).filter_by(nk).first()`), update it in
place if present, else insert a freshly built row at the end. -/
def upsertList (match_ : γ → α → Bool) (upd : γ → α → α) (ins : List α → γ → α)
    (l : List α) (c : γ) : List α :=
  if (l.find? (match_ c)).isSome then updateFirstBy (match_ c) (upd c) l
  else l ++ [ins l c]

/-! ## src/etl.py helper functions -/

/-- `get_surrogate_key_map` (src/etl.py:23-29), instantiated per dimension
below: the list of `(natural key, surrogate key)` pairs in row order,
read as a Python dict by `dictGet`. -/
def get_surrogate_key_map (rows : List α) (nat sur : α → Nat) : List (Nat × Nat) :=
  rows.map (fun r => (nat r, sur r))

def filmKeyMap (t : Target) : List (Nat × Nat) :=
  get_surrogate_key_map t.dim_film (fun r => r.film_id) (fun r => r.film_key)

def customerKeyMap (t : Target) : List (Nat × Nat) :=
  get_surrogate_key_map t.dim_customer (fun r => r.customer_id) (fun r => r.customer_key)

def storeKeyMap (t : Target) : List (Nat × Nat) :=
  get_surrogate_key_map t.dim_store (fun r => r.store_id) (fun r => r.store_key)

def actorKeyMap (t : Target) : List (Nat × Nat) :=
  get_surrogate_key_map t.dim_actor (fun r => r.actor_id) (fun r => r.actor_key)

def categoryKeyMap (t : Target) : List (Nat × Nat) :=
  get_surrogate_key_map t.dim_category (fun r => r.category_id) (fun r => r.category_key)

/-- `update_sync_state` (src/etl.py:31-40): fetch the `SyncState` row by
primary key, create it if absent, overwrite its timestamp. -/
def update_sync_state (t : Target) (name : String) (ts : Nat) : Target :=
  if (t.sync_state.find? (fun s => s.table_name == name)).isSome then
    let st := updateFirstBy (fun s => s.table_name == name)
      (fun s => { s with last_sync_timestamp := ts }) t.sync_state
    { t with sync_state := st }
  else
    { t with sync_state := t.sync_state ++ [⟨name, ts⟩] }

/-- The stored watermark of a table, if any. -/
def syncStateLookup (t : Target) (name : String) : Option Nat :=
  (t.sync_state.find? (fun s => s.table_name == name)).map
    (fun s => s.last_sync_timestamp)

/-- `state.last_sync_timestamp if state else datetime.datetime.min`. -/
def watermark (t : Target) (name : String) : Nat :=
  (syncStateLookup t name).getD 0

/-! ## `load_dim_date` (src/etl.py:45-90) -/

/-- The `DimDate` row built in the body of the generation loop
(src/etl.py:67-76). -/
def mkDimDateRow (d : Date) : DimDateRow :=
  { date_key := d.key
    date := d
    year := d.year
    quarter := (d.month - 1) / 3 + 1
    month := d.month
    day_of_month := d.day
    day_of_week := d.dayOfWeek
    is_weekend := decide (5 ≤ d.dayOfWeek) }

/-- The `while current_date <= end_date` loop of `load_dim_date`:
`rows` are the committed rows, `batch` the pending ones; every 1000
pending rows the batch is committed.  The loop always terminates because
the date strictly increases; `fuel` is an upper bound on the number of
iterations, chosen large enough in `load_dim_date` that it is never
exhausted (the loop's own exit condition fires first). -/
def dimDateLoop (endD : Date) (existing : List Nat) :
    Nat → Date → List DimDateRow → List DimDateRow → List DimDateRow × List DimDateRow
  | 0, _, rows, batch => (rows, batch)
  | fuel + 1, cur, rows, batch =>
    if cur.leb endD then
      let batch' := if existing.contains cur.key then batch
        else batch ++ [mkDimDateRow cur]
      if 1000 ≤ batch'.length then
        dimDateLoop endD existing fuel cur.nextDay (rows ++ batch') []
      else
        dimDateLoop endD existing fuel cur.nextDay rows batch'
    else (rows, batch)

/-- The sequence of loop variables `current_date` visited by
`dimDateLoop` (same exit condition and same advance): named separately so
the loop's effect can be stated date by date. -/
def genDates (endD : Date) : Nat → Date → List Date
  | 0, _ => []
  | fuel + 1, cur => if cur.leb endD then cur :: genDates endD fuel cur.nextDay else []

/-- `load_dim_date` (src/etl.py:45-90): pre-load the existing key set,
walk the days of `[Jan 1 start_year, Dec 31 end_year]`, insert each
missing day, committing in batches of 1000 and once at the end. -/
def load_dim_date (t : Target) (start_year end_year : Nat) : Target :=
  let start_date : Date := ⟨start_year, 1, 1⟩
  let end_date : Date := ⟨end_year, 12, 31⟩
  let existing := t.dim_date.map (fun r => r.date_key)
  let fuel := end_date.key + 2 - start_date.key
  let res := dimDateLoop end_date existing fuel start_date t.dim_date []
  { t with dim_date := res.1 ++ res.2 }

/-! ## Dimension synchronizers (src/etl.py:95-306) -/

/-- The extraction query of `sync_dim_film` (src/etl.py:106). -/
def filmChanges (src : Source) (t : Target) : List SakilaFilmRow :=
  src.films.filter (fun f => decide (watermark t "dim_film" < f.last_update))

/-- `existing = target.query(DimFilm).filter_by(film_id=src.film_id).first()`. -/
def matchDimFilm (c : SakilaFilmRow) (r : DimFilmRow) : Bool :=
  r.film_id == c.film_id

/-- The update branch of the `sync_dim_film` loop (src/etl.py:116-121). -/
def updDimFilm (now : Nat) (c : SakilaFilmRow) (r : DimFilmRow) : DimFilmRow :=
  { r with title := c.title, rating := c.rating,
           length := c.length, last_update := now }

/-- The insert branch of the `sync_dim_film` loop (src/etl.py:122-131);
`language` and `release_year` are not assigned and stay NULL. -/
def insDimFilm (now : Nat) (l : List DimFilmRow) (c : SakilaFilmRow) : DimFilmRow :=
  { film_key := nextAutoKey (l.map (fun r => r.film_key))
    film_id := c.film_id
    title := c.title
    rating := c.rating
    length := c.length
    language := none
    release_year := none
    last_update := now }

/-- One iteration of the `sync_dim_film` upsert loop (src/etl.py:112-132). -/
def upsertDimFilm (now : Nat) (t : Target) (srcRow : SakilaFilmRow) : Target :=
  let rows := upsertList matchDimFilm (updDimFilm now) (insDimFilm now)
    t.dim_film srcRow
  { t with dim_film := rows }

/-- `sync_dim_film` (src/etl.py:95-137). -/
def sync_dim_film (src : Source) (t : Target) (now : Nat) : Target :=
  let changes := filmChanges src t
  if changes.isEmpty then t
  else update_sync_state (changes.foldl (upsertDimFilm now) t) "dim_film" now

/-- The joined extraction query of `sync_dim_customer`
(src/etl.py:154-159): Customer → Address → City → Country, filtered on
the customer's `last_update`. -/
def customerChanges (src : Source) (t : Target) :
    List (SakilaCustomerRow × String × String) :=
  (src.customers.flatMap (fun c =>
    (src.addresses.filter (fun a => a.address_id == c.address_id)).flatMap (fun a =>
      (src.cities.filter (fun ci => ci.city_id == a.city_id)).flatMap (fun ci =>
        (src.countries.filter (fun co => co.country_id == ci.country_id)).map
          (fun co => (c, ci.city, co.country)))))).filter
    (fun x => decide (watermark t "dim_customer" < x.1.last_update))

/-- `filter_by(customer_id=cust_obj.customer_id).first()`. -/
def matchDimCustomer (c : SakilaCustomerRow × String × String)
    (r : DimCustomerRow) : Bool :=
  r.customer_id == c.1.customer_id

/-- The update branch of the `sync_dim_customer` loop (src/etl.py:170-178). -/
def updDimCustomer (now : Nat) (c : SakilaCustomerRow × String × String)
    (r : DimCustomerRow) : DimCustomerRow :=
  { r with first_name := c.1.first_name, last_name := c.1.last_name,
           email := c.1.email, active := c.1.active,
           city := c.2.1, country := c.2.2, last_update := now }

/-- The insert branch of the `sync_dim_customer` loop (src/etl.py:179-191). -/
def insDimCustomer (now : Nat) (l : List DimCustomerRow)
    (c : SakilaCustomerRow × String × String) : DimCustomerRow :=
  { customer_key := nextAutoKey (l.map (fun r => r.customer_key))
    customer_id := c.1.customer_id
    first_name := c.1.first_name
    last_name := c.1.last_name
    email := c.1.email
    active := c.1.active
    city := c.2.1
    country := c.2.2
    last_update := now }

/-- One iteration of the `sync_dim_customer` upsert loop
(src/etl.py:166-192). -/
def upsertDimCustomer (now : Nat) (t : Target)
    (c : SakilaCustomerRow × String × String) : Target :=
  let rows := upsertList matchDimCustomer (updDimCustomer now) (insDimCustomer now)
    t.dim_customer c
  { t with dim_customer := rows }

/-- `sync_dim_customer` (src/etl.py:139-197). -/
def sync_dim_customer (src : Source) (t : Target) (now : Nat) : Target :=
  let changes := customerChanges src t
  if changes.isEmpty then t
  else update_sync_state (changes.foldl (upsertDimCustomer now) t) "dim_customer" now

/-- The joined extraction query of `sync_dim_store` (src/etl.py:214-219). -/
def storeChanges (src : Source) (t : Target) :
    List (SakilaStoreRow × String × String) :=
  (src.stores.flatMap (fun s =>
    (src.addresses.filter (fun a => a.address_id == s.address_id)).flatMap (fun a =>
      (src.cities.filter (fun ci => ci.city_id == a.city_id)).flatMap (fun ci =>
        (src.countries.filter (fun co => co.country_id == ci.country_id)).map
          (fun co => (s, ci.city, co.country)))))).filter
    (fun x => decide (watermark t "dim_store" < x.1.last_update))

/-- `filter_by(store_id=store_obj.store_id).first()`. -/
def matchDimStore (c : SakilaStoreRow × String × String) (r : DimStoreRow) : Bool :=
  r.store_id == c.1.store_id

/-- The update branch of the `sync_dim_store` loop (src/etl.py:229-233). -/
def updDimStore (now : Nat) (c : SakilaStoreRow × String × String)
    (r : DimStoreRow) : DimStoreRow :=
  { r with city := c.2.1, country := c.2.2, last_update := now }

/-- The insert branch of the `sync_dim_store` loop (src/etl.py:234-242). -/
def insDimStore (now : Nat) (l : List DimStoreRow)
    (c : SakilaStoreRow × String × String) : DimStoreRow :=
  { store_key := nextAutoKey (l.map (fun r => r.store_key))
    store_id := c.1.store_id
    city := c.2.1
    country := c.2.2
    last_update := now }

/-- One iteration of the `sync_dim_store` upsert loop (src/etl.py:226-243). -/
def upsertDimStore (now : Nat) (t : Target)
    (c : SakilaStoreRow × String × String) : Target :=
  let rows := upsertList matchDimStore (updDimStore now) (insDimStore now)
    t.dim_store c
  { t with dim_store := rows }

/-- `sync_dim_store` (src/etl.py:199-248). -/
def sync_dim_store (src : Source) (t : Target) (now : Nat) : Target :=
  let changes := storeChanges src t
  if changes.isEmpty then t
  else update_sync_state (changes.foldl (upsertDimStore now) t) "dim_store" now

/-- The extraction query of `sync_dim_actor` (src/etl.py:256). -/
def actorChanges (src : Source) (t : Target) : List SakilaActorRow :=
  src.actors.filter (fun a => decide (watermark t "dim_actor" < a.last_update))

/-- `filter_by(actor_id=src.actor_id).first()`. -/
def matchDimActor (c : SakilaActorRow) (r : DimActorRow) : Bool :=
  r.actor_id == c.actor_id

/-- The update branch of the `sync_dim_actor` loop (src/etl.py:262-265). -/
def updDimActor (now : Nat) (c : SakilaActorRow) (r : DimActorRow) : DimActorRow :=
  { r with first_name := c.first_name, last_name := c.last_name,
           last_update := now }

/-- The insert branch of the `sync_dim_actor` loop (src/etl.py:266-273). -/
def insDimActor (now : Nat) (l : List DimActorRow) (c : SakilaActorRow) : DimActorRow :=
  { actor_key := nextAutoKey (l.map (fun r => r.actor_key))
    actor_id := c.actor_id
    first_name := c.first_name
    last_name := c.last_name
    last_update := now }

/-- One iteration of the `sync_dim_actor` upsert loop (src/etl.py:260-274). -/
def upsertDimActor (now : Nat) (t : Target) (srcRow : SakilaActorRow) : Target :=
  let rows := upsertList matchDimActor (updDimActor now) (insDimActor now)
    t.dim_actor srcRow
  { t with dim_actor := rows }

/-- `sync_dim_actor` (src/etl.py:250-278). -/
def sync_dim_actor (src : Source) (t : Target) (now : Nat) : Target :=
  let changes := actorChanges src t
  if changes.isEmpty then t
  else update_sync_state (changes.foldl (upsertDimActor now) t) "dim_actor" now

/-- The extraction query of `sync_dim_category` (src/etl.py:286). -/
def categoryChanges (src : Source) (t : Target) : List SakilaCategoryRow :=
  src.categories.filter (fun c => decide (watermark t "dim_category" < c.last_update))

/-- `filter_by(category_id=src.category_id).first()`. -/
def matchDimCategory (c : SakilaCategoryRow) (r : DimCategoryRow) : Bool :=
  r.category_id == c.category_id

/-- The update branch of the `sync_dim_category` loop (src/etl.py:292-294). -/
def updDimCategory (now : Nat) (c : SakilaCategoryRow) (r : DimCategoryRow) :
    DimCategoryRow :=
  { r with name := c.name, last_update := now }

/-- The insert branch of the `sync_dim_category` loop (src/etl.py:295-301). -/
def insDimCategory (now : Nat) (l : List DimCategoryRow) (c : SakilaCategoryRow) :
    DimCategoryRow :=
  { category_key := nextAutoKey (l.map (fun r => r.category_key))
    category_id := c.category_id
    name := c.name
    last_update := now }

/-- One iteration of the `sync_dim_category` upsert loop (src/etl.py:290-302). -/
def upsertDimCategory (now : Nat) (t : Target) (srcRow : SakilaCategoryRow) : Target :=
  let rows := upsertList matchDimCategory (updDimCategory now) (insDimCategory now)
    t.dim_category srcRow
  { t with dim_category := rows }

/-- `sync_dim_category` (src/etl.py:280-306). -/
def sync_dim_category (src : Source) (t : Target) (now : Nat) : Target :=
  let changes := categoryChanges src t
  if changes.isEmpty then t
  else update_sync_state (changes.foldl (upsertDimCategory now) t) "dim_category" now

/-! ## `sync_bridge_tables` (src/etl.py:308-350) -/

/-- One iteration of the Film-Actor rebuild loop (src/etl.py:327-331):
translate the association through the key maps, keeping it only when both
lookups are truthy (`if f_key and a_key:` — `None` and `0` are dropped). -/
def bridgeFALink (film_map actor_map : List (Nat × Nat))
    (link : SakilaFilmActorRow) : Option BridgeFilmActorRow :=
  match dictGet film_map link.film_id, dictGet actor_map link.actor_id with
  | some f, some a => if f != 0 && a != 0 then some ⟨f, a⟩ else none
  | _, _ => none

/-- The Film-Actor rebuild loop (src/etl.py:325-334). -/
def buildBridgeFA (links : List SakilaFilmActorRow)
    (film_map actor_map : List (Nat × Nat)) : List BridgeFilmActorRow :=
  links.filterMap (bridgeFALink film_map actor_map)

/-- One iteration of the Film-Category rebuild loop (src/etl.py:340-344). -/
def bridgeFCLink (film_map category_map : List (Nat × Nat))
    (link : SakilaFilmCategoryRow) : Option BridgeFilmCategoryRow :=
  match dictGet film_map link.film_id, dictGet category_map link.category_id with
  | some f, some c => if f != 0 && c != 0 then some ⟨f, c⟩ else none
  | _, _ => none

/-- The Film-Category rebuild loop (src/etl.py:338-347). -/
def buildBridgeFC (links : List SakilaFilmCategoryRow)
    (film_map category_map : List (Nat × Nat)) : List BridgeFilmCategoryRow :=
  links.filterMap (bridgeFCLink film_map category_map)

/-- `sync_bridge_tables` (src/etl.py:308-350): delete all bridge rows of
both kinds, rebuild the three key maps, reload both bridges from the full
current source association sets. -/
def sync_bridge_tables (src : Source) (t : Target) : Target :=
  let t1 := { t with bridge_film_actor := [], bridge_film_category := [] }
  let film_map := filmKeyMap t1
  let actor_map := actorKeyMap t1
  let category_map := categoryKeyMap t1
  { t1 with bridge_film_actor := buildBridgeFA src.film_actors film_map actor_map,
            bridge_film_category := buildBridgeFC src.film_categories film_map category_map }

/-! ## Fact synchronizers (src/etl.py:352-463) -/

/-- The joined extraction query of `sync_fact_rental`
(src/etl.py:366-369): Rental → Inventory (for the film id), filtered on
the rental's `last_update`. -/
def rentalChanges (src : Source) (t : Target) : List (SakilaRentalRow × Nat) :=
  (src.rentals.flatMap (fun r =>
    (src.inventories.filter (fun i => i.inventory_id == r.inventory_id)).map
      (fun i => (r, i.film_id)))).filter
    (fun x => decide (watermark t "fact_rental" < x.1.last_update))

/-- `duration` computation (src/etl.py:383-385): 0 when not yet
returned, else `(return_date - rental_date).days`. -/
def rentalDuration (r : SakilaRentalRow) : Int :=
  match r.return_date with
  | some ret => timedeltaDays ret r.rental_date
  | none => 0

/-- The `FactRental` built on the insert path (src/etl.py:394-403).
`store_key` is not among the assigned fields, so the column stays NULL. -/
def mkFactRentalInsert (now : Nat) (film_map cust_map : List (Nat × Nat))
    (factKey : Nat) (r : SakilaRentalRow) (film_id : Nat) : FactRentalRow :=
  { fact_rental_key := factKey
    rental_id := r.rental_id
    date_key_rented := generate_date_key (some r.rental_date)
    date_key_returned := generate_date_key r.return_date
    film_key := dictGet film_map film_id
    store_key := none
    customer_key := dictGet cust_map r.customer_id
    staff_id := r.staff_id
    rental_duration_days := rentalDuration r
    last_update := now }

/-- `filter_by(rental_id=r_obj.rental_id).first()`. -/
def matchFactRental (c : SakilaRentalRow × Nat) (f : FactRentalRow) : Bool :=
  f.rental_id == c.1.rental_id

/-- The update branch of the `sync_fact_rental` loop (src/etl.py:387-391):
only `date_key_returned`, `rental_duration_days` and `last_update` are
assigned. -/
def updFactRental (now : Nat) (c : SakilaRentalRow × Nat) (f : FactRentalRow) :
    FactRentalRow :=
  { f with date_key_returned := generate_date_key c.1.return_date,
           rental_duration_days := rentalDuration c.1,
           last_update := now }

/-- The insert branch of the `sync_fact_rental` loop (src/etl.py:392-404). -/
def insFactRental (now : Nat) (film_map cust_map : List (Nat × Nat))
    (l : List FactRentalRow) (c : SakilaRentalRow × Nat) : FactRentalRow :=
  mkFactRentalInsert now film_map cust_map
    (nextAutoKey (l.map (fun f => f.fact_rental_key))) c.1 c.2

/-- One iteration of the `sync_fact_rental` upsert loop
(src/etl.py:379-405). -/
def upsertFactRental (now : Nat) (film_map cust_map : List (Nat × Nat))
    (t : Target) (c : SakilaRentalRow × Nat) : Target :=
  let rows := upsertList matchFactRental (updFactRental now)
    (insFactRental now film_map cust_map) t.fact_rental c
  { t with fact_rental := rows }

/-- `sync_fact_rental` (src/etl.py:352-409): after the early return the
film and customer key maps are (re)built from the current target state;
no store map is built. -/
def sync_fact_rental (src : Source) (t : Target) (now : Nat) : Target :=
  let changes := rentalChanges src t
  if changes.isEmpty then t
  else
    let film_map := filmKeyMap t
    let cust_map := customerKeyMap t
    update_sync_state (changes.foldl (upsertFactRental now film_map cust_map) t)
      "fact_rental" now

/-- The joined extraction query of `sync_fact_payment`
(src/etl.py:422-425): Payment → Staff (for the store id), filtered on
the payment's `last_update`. -/
def paymentChanges (src : Source) (t : Target) : List (SakilaPaymentRow × Nat) :=
  (src.payments.flatMap (fun p =>
    (src.staffs.filter (fun s => s.staff_id == p.staff_id)).map
      (fun s => (p, s.store_id)))).filter
    (fun x => decide (watermark t "fact_payment" < x.1.last_update))

/-- The `FactPayment` built on the insert path (src/etl.py:449-457). -/
def mkFactPaymentInsert (now : Nat) (cust_map store_map : List (Nat × Nat))
    (factKey : Nat) (p : SakilaPaymentRow) (store_id : Nat) : FactPaymentRow :=
  { fact_payment_key := factKey
    payment_id := p.payment_id
    date_key_paid := generate_date_key (some p.payment_date)
    customer_key := dictGet cust_map p.customer_id
    store_key := dictGet store_map store_id
    staff_id := p.staff_id
    amount := p.amount
    last_update := now }

/-- The update assignment of the `sync_fact_payment` upsert loop
(src/etl.py:442-447): amount, date key, customer key, store key and
`last_update` are all rewritten from the current maps. -/
def updFactPayment (now : Nat) (cust_map store_map : List (Nat × Nat))
    (c : SakilaPaymentRow × Nat) (f : FactPaymentRow) : FactPaymentRow :=
  { f with amount := c.1.amount,
           date_key_paid := generate_date_key (some c.1.payment_date),
           customer_key := dictGet cust_map c.1.customer_id,
           store_key := dictGet store_map c.2,
           last_update := now }

/-- `filter_by(payment_id=p_obj.payment_id).first()`. -/
def matchFactPayment (c : SakilaPaymentRow × Nat) (f : FactPaymentRow) : Bool :=
  f.payment_id == c.1.payment_id

/-- The insert branch of the `sync_fact_payment` loop (src/etl.py:448-458). -/
def insFactPayment (now : Nat) (cust_map store_map : List (Nat × Nat))
    (l : List FactPaymentRow) (c : SakilaPaymentRow × Nat) : FactPaymentRow :=
  mkFactPaymentInsert now cust_map store_map
    (nextAutoKey (l.map (fun f => f.fact_payment_key))) c.1 c.2

/-- One iteration of the `sync_fact_payment` upsert loop
(src/etl.py:434-459). -/
def upsertFactPayment (now : Nat) (cust_map store_map : List (Nat × Nat))
    (t : Target) (c : SakilaPaymentRow × Nat) : Target :=
  let rows := upsertList matchFactPayment (updFactPayment now cust_map store_map)
    (insFactPayment now cust_map store_map) t.fact_payment c
  { t with fact_payment := rows }

/-- `sync_fact_payment` (src/etl.py:411-463): after the early return the
customer and store key maps are (re)built from the current target state. -/
def sync_fact_payment (src : Source) (t : Target) (now : Nat) : Target :=
  let changes := paymentChanges src t
  if changes.isEmpty then t
  else
    let cust_map := customerKeyMap t
    let store_map := storeKeyMap t
    update_sync_state (changes.foldl (upsertFactPayment now cust_map store_map) t)
      "fact_payment" now

/-! ## Orchestrator (src/etl.py:478-556) and validator (src/etl.py:560-618) -/

/-- The clearing phase of `full_load` (src/etl.py:489-500), committed
before the fresh load starts: facts, the five dimensions, `SyncState`.
`DimDate` and the two bridge tables are not cleared. -/
def fullLoadClear (t : Target) : Target :=
  { t with fact_rental := [], fact_payment := [],
           dim_store := [], dim_customer := [], dim_film := [],
           dim_actor := [], dim_category := [],
           sync_state := [] }

/-- `full_load` (src/etl.py:478-525), error-free run: clear, then the
dimension → fact → bridge sequence. -/
def full_load (src : Source) (t : Target) (now : Nat) : Target :=
  sync_bridge_tables src
    (sync_fact_payment src
      (sync_fact_rental src
        (sync_dim_category src
          (sync_dim_actor src
            (sync_dim_store src
              (sync_dim_customer src
                (sync_dim_film src (fullLoadClear t) now) now) now) now) now) now) now)

/-- `incremental_load` (src/etl.py:528-556), error-free run: the same
dimension → fact → bridge sequence with no clearing. -/
def incremental_load (src : Source) (t : Target) (now : Nat) : Target :=
  sync_bridge_tables src
    (sync_fact_payment src
      (sync_fact_rental src
        (sync_dim_category src
          (sync_dim_actor src
            (sync_dim_store src
              (sync_dim_customer src
                (sync_dim_film src t now) now) now) now) now) now) now)

/-- One line of the validator's count table. -/
structure CheckLine where
  name : String
  srcCount : Nat
  tgtCount : Nat
  status : String
deriving DecidableEq

/-- The validator's output (src/etl.py:560-618): the seven count lines in
order, the two revenue sums with their status, and the `issues_found`
flag.  The embedding returns the report; the function reads both stores
and builds no mutation. -/
structure ValidationReport where
  checks : List CheckLine
  src_revenue : Rat
  tgt_revenue : Rat
  revenue_status : String
  issues_found : Bool
deriving DecidableEq

/-- One iteration of the count-check loop (src/etl.py:585-592). -/
def mkCheckLine (name : String) (src_count tgt_count : Nat) : CheckLine :=
  { name := name, srcCount := src_count, tgtCount := tgt_count,
    status := if src_count = tgt_count then "OK" else "FAIL" }

/-- `validate_data` (src/etl.py:560-618).  `func.count` of a primary-key
column is the row count; `func.sum(...) or 0.0` is the sum (0 on empty). -/
def validate_data (src : Source) (t : Target) : ValidationReport :=
  let checks : List CheckLine :=
    [ mkCheckLine "Films" src.films.length t.dim_film.length,
      mkCheckLine "Customers" src.customers.length t.dim_customer.length,
      mkCheckLine "Stores" src.stores.length t.dim_store.length,
      mkCheckLine "Actors" src.actors.length t.dim_actor.length,
      mkCheckLine "Categories" src.categories.length t.dim_category.length,
      mkCheckLine "Rentals" src.rentals.length t.fact_rental.length,
      mkCheckLine "Payments" src.payments.length t.fact_payment.length ]
  let src_rev : Rat := (src.payments.map (fun p => p.amount)).sum
  let tgt_rev : Rat := (t.fact_payment.map (fun f => f.amount)).sum
  let diff : Rat := |src_rev - tgt_rev|
  let rev_status := if diff < 1 / 100 then "OK" else "FAIL"
  { checks := checks
    src_revenue := src_rev
    tgt_revenue := tgt_rev
    revenue_status := rev_status
    issues_found := checks.any (fun c => c.status == "FAIL") || rev_status == "FAIL" }

/-! ## Concrete states used to exercise the theorems -/

def dt1 : DateTime := ⟨⟨2005, 5, 25⟩, 3600⟩

/-- A one-row-per-table source whose every `last_update` is 5. -/
def wSource : Source :=
  { films := [⟨1, "ACADEMY DINOSAUR", "PG", 86, 5⟩]
    customers := [⟨1, 1, "MARY", "SMITH", "m@x", 1, 5⟩]
    addresses := [⟨1, 1⟩]
    cities := [⟨1, 1, "Lethbridge"⟩]
    countries := [⟨1, "Canada"⟩]
    stores := [⟨1, 1, 5⟩]
    actors := [⟨1, "PENELOPE", "GUINESS", 5⟩]
    categories := [⟨1, "Action", 5⟩]
    film_actors := [⟨1, 1⟩]
    film_categories := [⟨1, 1⟩]
    inventories := [⟨1, 1⟩]
    rentals := [⟨1, 1, 1, 1, dt1, none, 5⟩]
    staffs := [⟨1, 1⟩]
    payments := [⟨1, 1, 1, (3 : Rat), dt1, 5⟩] }

/-- A target holding one film (key 3), one customer (key 4) and one store
(key 7), and nothing else. -/
def c4Target : Target :=
  { emptyTarget with
      dim_film := [⟨3, 1, "ACADEMY DINOSAUR", "PG", 86, none, none, 1⟩]
      dim_customer := [⟨4, 1, "MARY", "SMITH", "m@x", 1, "L", "C", 1⟩]
      dim_store := [⟨7, 1, "L", "C", 1⟩] }

/-- A target with one film row, one actor row and one bridge row linking
their surrogate keys. -/
def c6Target : Target :=
  { emptyTarget with
      dim_film := [⟨1, 1, "ACADEMY DINOSAUR", "PG", 86, none, none, 1⟩]
      dim_actor := [⟨1, 1, "PENELOPE", "GUINESS", 1⟩]
      bridge_film_actor := [⟨1, 1⟩] }

/-- A target already holding the fact row for rental 1 (not yet
returned), as left by a previous sync at time 1. -/
def c10Target : Target :=
  { emptyTarget with
      dim_film := [⟨3, 1, "ACADEMY DINOSAUR", "PG", 86, none, none, 1⟩]
      dim_customer := [⟨4, 1, "MARY", "SMITH", "m@x", 1, "L", "C", 1⟩]
      fact_rental := [⟨1, 1, some 20050525, none, some 3, none, some 4, 1, 0, 1⟩] }

/-- A source whose rental 1 has now been returned (`last_update` 8). -/
def c10Source : Source :=
  { wSource with rentals := [⟨1, 1, 1, 1, dt1, some ⟨⟨2005, 5, 27⟩, 3600⟩, 8⟩] }

/-- The fact row `sync_fact_rental` inserts for `c10Source`'s rental
against the empty target at `now` = 9: both key maps are empty, so every
foreign surrogate key is NULL, and the rental lasted 2 days. -/
def c10InsRow : FactRentalRow :=
  ⟨1, 1, some 20050525, some 20050527, none, none, none, 1, 2, 9⟩

/-- Referential integrity of the bridge tables: both surrogate keys of
every bridge row are keys of currently existing dimension rows. -/
def bridgeRefsOk (t : Target) : Prop :=
  (∀ b ∈ t.bridge_film_actor,
    (∃ r ∈ t.dim_film, r.film_key = b.film_key) ∧
    (∃ r ∈ t.dim_actor, r.actor_key = b.actor_key)) ∧
  (∀ b ∈ t.bridge_film_category,
    (∃ r ∈ t.dim_film, r.film_key = b.film_key) ∧
    (∃ r ∈ t.dim_category, r.category_key = b.category_key))

instance (t : Target) : Decidable (bridgeRefsOk t) := by
  unfold bridgeRefsOk; infer_instance

/-- Every stored surrogate key of the three bridge-feeding dimensions is
positive — what SQLite rowid allocation guarantees for rows this pipeline
created. -/
def surrogatesPositive (t : Target) : Prop :=
  (∀ r ∈ t.dim_film, 0 < r.film_key) ∧
  (∀ r ∈ t.dim_actor, 0 < r.actor_key) ∧
  (∀ r ∈ t.dim_category, 0 < r.category_key)

instance (t : Target) : Decidable (surrogatesPositive t) := by
  unfold surrogatesPositive; infer_instance

/-- A target holding one film (key 3), one actor (key 5) and one category
(key 6). -/
def c5Target : Target :=
  { emptyTarget with
      dim_film := [⟨3, 1, "ACADEMY DINOSAUR", "PG", 86, none, none, 1⟩]
      dim_actor := [⟨5, 1, "PENELOPE", "GUINESS", 1⟩]
      dim_category := [⟨6, 1, "Action", 1⟩] }

/-- Associations for films 1 and 2 — film 2 has no dimension row, so its
links must be dropped. -/
def c5Source : Source :=
  { wSource with
      film_actors := [⟨1, 1⟩, ⟨2, 1⟩]
      film_categories := [⟨1, 1⟩, ⟨2, 1⟩] }

/-- The fact row `sync_fact_rental` inserts for `wSource`'s (unreturned)
rental against `c4Target` at `now` = 9: film and customer resolve through
the maps (keys 3 and 4), `store_key` stays NULL although `c4Target` has
the store under key 7. -/
def c4InsRow : FactRentalRow :=
  ⟨1, 1, some 20050525, none, some 3, none, some 4, 1, 0, 9⟩

/-! ## Basic lemmas about the helpers -/

@[simp] theorem updateFirstBy_nil (p : α → Bool) (f : α → α) :
    updateFirstBy p f [] = [] := rfl

theorem updateFirstBy_cons (p : α → Bool) (f : α → α) (x : α) (xs : List α) :
    updateFirstBy p f (x :: xs) =
      if p x then f x :: xs else x :: updateFirstBy p f xs := rfl

theorem updateFirstBy_length (p : α → Bool) (f : α → α) :
    ∀ l : List α, (updateFirstBy p f l).length = l.length := by
  intro l
  induction l with
  | nil => rfl
  | cons x xs ih =>
    rw [updateFirstBy_cons]
    by_cases h : p x <;> simp [h, ih]

theorem updateFirstBy_get? (p : α → Bool) (f : α → α) :
    ∀ (l : List α) (i : Nat),
      (updateFirstBy p f l)[i]? = l[i]? ∨
        ∃ x, l[i]? = some x ∧ p x = true ∧
          (updateFirstBy p f l)[i]? = some (f x) := by
  intro l
  induction l with
  | nil => intro i; left; rfl
  | cons x xs ih =>
    intro i
    rw [updateFirstBy_cons]
    by_cases hp : p x
    · simp only [hp, if_true]
      cases i with
      | zero => right; exact ⟨x, by simp, hp, by simp⟩
      | succ j => left; simp
    · simp only [hp, if_false, Bool.false_eq_true]
      cases i with
      | zero => left; simp
      | succ j => simpa using ih j

theorem updateFirstBy_get?_of_not (p : α → Bool) (f : α → α)
    (l : List α) (i : Nat) (x : α) (hx : l[i]? = some x)
    (hnp : p x = false) :
    (updateFirstBy p f l)[i]? = l[i]? := by
  rcases updateFirstBy_get? p f l i with h1 | ⟨y, hy, hpy, _⟩
  · exact h1
  · rw [hx] at hy
    cases hy
    rw [hnp] at hpy
    cases hpy

theorem updateFirstBy_mem (p : α → Bool) (f : α → α) :
    ∀ (l : List α) (r : α), r ∈ l →
      r ∈ updateFirstBy p f l ∨ f r ∈ updateFirstBy p f l := by
  intro l
  induction l with
  | nil => intro r hr; cases hr
  | cons x xs ih =>
    intro r hr
    rw [updateFirstBy_cons]
    by_cases hp : p x
    · simp only [hp, if_true]
      rcases List.mem_cons.mp hr with rfl | hr2
      · right; exact List.mem_cons_self _ _
      · left; exact List.mem_cons_of_mem _ hr2
    · simp only [hp, if_false]
      rcases List.mem_cons.mp hr with rfl | hr2
      · left; exact List.mem_cons_self _ _
      · rcases ih r hr2 with h1 | h1
        · left; exact List.mem_cons_of_mem _ h1
        · right; exact List.mem_cons_of_mem _ h1

theorem updateFirstBy_map_eq (p : α → Bool) (f : α → α) (g : α → β)
    (hg : ∀ x, p x = true → g (f x) = g x) :
    ∀ l : List α, (updateFirstBy p f l).map g = l.map g := by
  intro l
  induction l with
  | nil => rfl
  | cons x xs ih =>
    rw [updateFirstBy_cons]
    by_cases hp : p x <;> simp [hp, ih, hg x]

/-- A projection that every fold step preserves is preserved by the fold. -/
theorem foldl_proj_eq {β γ δ : Type _} (f : β → γ → β) (P : β → δ)
    (h : ∀ b c, P (f b c) = P b) :
    ∀ (l : List γ) (b : β), P (l.foldl f b) = P b := by
  intro l
  induction l with
  | nil => intro b; rfl
  | cons c cs ih => intro b; rw [List.foldl_cons, ih, h]

/-! ## Lookup behaviour of `update_sync_state` -/

theorem find?_updateSync_self (n : String) (ts : Nat) :
    ∀ l : List SyncStateRow,
      (l.find? (fun s => s.table_name == n)).isSome = true →
      ((updateFirstBy (fun s => s.table_name == n)
          (fun s => { s with last_sync_timestamp := ts }) l).find?
        (fun s => s.table_name == n)).map (fun s => s.last_sync_timestamp) =
        some ts := by
  intro l
  induction l with
  | nil => intro h; simp [List.find?] at h
  | cons x xs ih =>
    intro h
    rw [updateFirstBy_cons]
    by_cases hp : (x.table_name == n) = true
    · simp [List.find?, hp]
    · simp only [hp, Bool.false_eq_true, if_false]
      simp only [List.find?, hp] at h ⊢
      exact ih h

theorem find?_updateSync_other (n n' : String) (ts : Nat) (hne : n' ≠ n) :
    ∀ l : List SyncStateRow,
      (updateFirstBy (fun s => s.table_name == n)
          (fun s => { s with last_sync_timestamp := ts }) l).find?
        (fun s => s.table_name == n') =
        l.find? (fun s => s.table_name == n') := by
  intro l
  induction l with
  | nil => rfl
  | cons x xs ih =>
    rw [updateFirstBy_cons]
    by_cases hp : (x.table_name == n) = true
    · have hq : (x.table_name == n') = false := by
        have hx : x.table_name = n := by simpa using hp
        simp [hx, (Ne.symm hne)]
      simp only [hp, if_true]
      simp [List.find?, hq]
    · simp only [hp, Bool.false_eq_true, if_false]
      by_cases hq : (x.table_name == n') = true
      · simp [List.find?, hq]
      · simp only [List.find?, hq, Bool.false_eq_true]
        exact ih

theorem syncStateLookup_update_self (t : Target) (n : String) (ts : Nat) :
    syncStateLookup (update_sync_state t n ts) n = some ts := by
  unfold update_sync_state
  by_cases h : (t.sync_state.find? (fun s => s.table_name == n)).isSome = true
  · simp only [h, if_true]
    exact find?_updateSync_self n ts t.sync_state h
  · simp only [h, if_false]
    have hnone : t.sync_state.find? (fun s => s.table_name == n) = none := by
      cases hf : t.sync_state.find? (fun s => s.table_name == n) with
      | none => rfl
      | some v => rw [hf] at h; simp at h
    unfold syncStateLookup
    simp [List.find?_append, hnone, List.find?]

theorem syncStateLookup_update_other (t : Target) (n n' : String) (ts : Nat)
    (hne : n' ≠ n) :
    syncStateLookup (update_sync_state t n ts) n' = syncStateLookup t n' := by
  unfold update_sync_state
  by_cases h : (t.sync_state.find? (fun s => s.table_name == n)).isSome = true
  · simp only [h, if_true]
    unfold syncStateLookup
    rw [find?_updateSync_other n n' ts hne]
  · simp only [h, if_false]
    have hq : ((⟨n, ts⟩ : SyncStateRow).table_name == n') = false := by
      simp [show n ≠ n' from Ne.symm hne]
    unfold syncStateLookup
    cases hf : t.sync_state.find? (fun s => s.table_name == n') with
    | none => simp [List.find?_append, hf, List.find?, hq]
    | some v => simp [List.find?_append, hf]

/-! ## Generic lemmas about the upsert loop

`upsertFold match_ upd ins changes l` is the combined effect of the
synchronizer upsert loops: `List.foldl (upsertList match_ upd ins) l changes`. -/

section UpsertFold

variable {α γ : Type} (match_ : γ → α → Bool) (upd : γ → α → α) (ins : List α → γ → α)

/-- Single upsert step: the length never shrinks. -/
theorem upsertList_length_le (l : List α) (c : γ) :
    l.length ≤ (upsertList match_ upd ins l c).length := by
  unfold upsertList
  by_cases h : (l.find? (match_ c)).isSome = true <;> simp [h, updateFirstBy_length]

/-- The upsert loop never shrinks the table. -/
theorem upsertFold_length_le :
    ∀ (changes : List γ) (l : List α),
      l.length ≤ (changes.foldl (upsertList match_ upd ins) l).length := by
  intro changes
  induction changes with
  | nil => intro l; exact Nat.le_refl _
  | cons c cs ih =>
    intro l
    calc l.length ≤ (upsertList match_ upd ins l c).length :=
          upsertList_length_le match_ upd ins l c
      _ ≤ _ := ih _

/-- Pre-existing positions: any projection that every update assignment
preserves is unchanged by the whole loop, whatever rows are matched. -/
theorem upsertFold_get?_proj (P : α → β)
    (hP : ∀ c x, P (upd c x) = P x) :
    ∀ (changes : List γ) (l : List α) (i : Nat), i < l.length →
      ((changes.foldl (upsertList match_ upd ins) l)[i]?).map P = (l[i]?).map P := by
  intro changes
  induction changes with
  | nil => intro l i h; rfl
  | cons c cs ih =>
    intro l i h
    rw [List.foldl_cons]
    have h1 : i < (upsertList match_ upd ins l c).length :=
      Nat.lt_of_lt_of_le h (upsertList_length_le match_ upd ins l c)
    rw [ih _ i h1]
    unfold upsertList
    by_cases hf : (l.find? (match_ c)).isSome = true
    · rw [if_pos hf]
      rcases updateFirstBy_get? (match_ c) (upd c) l i with he | ⟨x, hx, _, he⟩
      · rw [he]
      · rw [he, hx]
        simp [hP]
    · rw [if_neg hf]
      rw [List.getElem?_append_left h]

/-- A predicate true of a pre-existing row and preserved by every update
assignment still holds at that row's position after the loop. -/
theorem upsertFold_get?_front_pred (P : α → Prop)
    (hPupd : ∀ c x, P x → P (upd c x)) :
    ∀ (changes : List γ) (l : List α) (j : Nat) (x : α),
      l[j]? = some x → P x →
      ∀ r, (changes.foldl (upsertList match_ upd ins) l)[j]? = some r → P r := by
  intro changes
  induction changes with
  | nil =>
    intro l j x hx hP r hr
    rw [List.foldl_nil] at hr
    rw [hx] at hr
    cases hr
    exact hP
  | cons c cs ih =>
    intro l j x hx hP r hr
    rw [List.foldl_cons] at hr
    have hj : j < l.length := (List.getElem?_eq_some_iff.mp hx).1
    by_cases hf : (l.find? (match_ c)).isSome = true
    · rw [show upsertList match_ upd ins l c = updateFirstBy (match_ c) (upd c) l
        from by unfold upsertList; rw [if_pos hf]] at hr
      rcases updateFirstBy_get? (match_ c) (upd c) l j with he | ⟨y, hy, _, he⟩
      · exact ih _ j x (he.trans hx) hP r hr
      · rw [hx] at hy
        cases hy
        exact ih _ j (upd c x) he (hPupd c x hP) r hr
    · rw [show upsertList match_ upd ins l c = l ++ [ins l c]
        from by unfold upsertList; rw [if_neg hf]] at hr
      exact ih _ j x ((List.getElem?_append_left hj).trans hx) hP r hr

/-- Rows appended by the loop (positions past the original length)
satisfy any predicate that holds of every inserted row and is preserved
by every update assignment. -/
theorem upsertFold_get?_suffix_pred (P : α → Prop)
    (hPupd : ∀ c x, P x → P (upd c x))
    (hPins : ∀ l c, P (ins l c)) :
    ∀ (changes : List γ) (l : List α) (j : Nat) (r : α), l.length ≤ j →
      (changes.foldl (upsertList match_ upd ins) l)[j]? = some r → P r := by
  intro changes
  induction changes with
  | nil =>
    intro l j r hj hr
    have hlt := (List.getElem?_eq_some_iff.mp hr).1
    rw [List.foldl_nil] at hr
    have hlt' := (List.getElem?_eq_some_iff.mp hr).1
    omega
  | cons c cs ih =>
    intro l j r hj hr
    rw [List.foldl_cons] at hr
    by_cases hf : (l.find? (match_ c)).isSome = true
    · rw [show upsertList match_ upd ins l c = updateFirstBy (match_ c) (upd c) l
        from by unfold upsertList; rw [if_pos hf]] at hr
      exact ih _ j r (by rw [updateFirstBy_length]; exact hj) hr
    · rw [show upsertList match_ upd ins l c = l ++ [ins l c]
        from by unfold upsertList; rw [if_neg hf]] at hr
      rcases Nat.lt_or_ge j (l.length + 1) with hj2 | hj2
      · have hj3 : j = l.length := by omega
        subst hj3
        have hins : (l ++ [ins l c])[l.length]? = some (ins l c) :=
          List.getElem?_concat_length l (ins l c)
        exact upsertFold_get?_front_pred match_ upd ins P hPupd cs
          (l ++ [ins l c]) l.length (ins l c) hins (hPins l c) r hr
      · have : (l ++ [ins l c]).length ≤ j := by simp; omega
        exact ih _ j r this hr

section UpsertIds

variable (getId : α → Nat) (cid : γ → Nat)

/-- The loop preserves "at most one row per natural key": an update keeps
every row's key, and an insert only happens when `find?` saw no row with
the incoming key. -/
theorem upsertFold_nodup_ids
    (hmatch : ∀ c x, match_ c x = (getId x == cid c))
    (hupd : ∀ c x, getId (upd c x) = getId x)
    (hins : ∀ l c, getId (ins l c) = cid c) :
    ∀ (changes : List γ) (l : List α), (l.map getId).Nodup →
      ((changes.foldl (upsertList match_ upd ins) l).map getId).Nodup := by
  intro changes
  induction changes with
  | nil => intro l h; exact h
  | cons c cs ih =>
    intro l h
    rw [List.foldl_cons]
    apply ih
    unfold upsertList
    by_cases hf : (l.find? (match_ c)).isSome = true
    · rw [if_pos hf]
      rw [updateFirstBy_map_eq _ _ _ (fun x _ => hupd c x)]
      exact h
    · rw [if_neg hf]
      have hnone : l.find? (match_ c) = none := by
        cases hfc : l.find? (match_ c) with
        | none => rfl
        | some v => rw [hfc] at hf; simp at hf
      have hnotin : cid c ∉ l.map getId := by
        intro hmem
        rcases List.mem_map.mp hmem with ⟨x, hxl, hxid⟩
        have := List.find?_eq_none.mp hnone x hxl
        rw [hmatch c x] at this
        simp [hxid] at this
      simp only [List.map_append, List.map_cons, List.map_nil]
      rw [hins l c]
      simp [List.nodup_append, h, hnotin]

/-- Every pre-existing row keeps its natural key and its surrogate key:
some row with the same pair is still present after the loop. -/
theorem upsertFold_stable (getKey : α → Nat)
    (hupd : ∀ c x, getId (upd c x) = getId x)
    (hupdKey : ∀ c x, getKey (upd c x) = getKey x) :
    ∀ (changes : List γ) (l : List α) (r : α), r ∈ l →
      ∃ r' ∈ changes.foldl (upsertList match_ upd ins) l,
        getId r' = getId r ∧ getKey r' = getKey r := by
  intro changes
  induction changes with
  | nil => intro l r hr; exact ⟨r, hr, rfl, rfl⟩
  | cons c cs ih =>
    intro l r hr
    rw [List.foldl_cons]
    unfold upsertList
    by_cases hf : (l.find? (match_ c)).isSome = true
    · rw [if_pos hf]
      rcases updateFirstBy_mem (match_ c) (upd c) l r hr with hm | hm
      · exact ih _ r hm
      · rcases ih _ (upd c r) hm with ⟨r', hr', hid, hkey⟩
        exact ⟨r', hr', by rw [hid, hupd], by rw [hkey, hupdKey]⟩
    · rw [if_neg hf]
      exact ih _ r (List.mem_append_left _ hr)

/-- A row whose natural key matches no remaining change keeps its exact
value (and position). -/
theorem upsertFold_get?_untouched
    (hmatch : ∀ c x, match_ c x = (getId x == cid c)) :
    ∀ (changes : List γ) (l : List α) (j : Nat) (x : α),
      l[j]? = some x → (∀ c ∈ changes, getId x ≠ cid c) →
      (changes.foldl (upsertList match_ upd ins) l)[j]? = some x := by
  intro changes
  induction changes with
  | nil => intro l j x hx _; exact hx
  | cons c cs ih =>
    intro l j x hx hid
    rw [List.foldl_cons]
    have hj : j < l.length := (List.getElem?_eq_some_iff.mp hx).1
    unfold upsertList
    by_cases hf : (l.find? (match_ c)).isSome = true
    · rw [if_pos hf]
      apply ih _ j x _ (fun c' hc' => hid c' (List.mem_cons_of_mem _ hc'))
      rw [updateFirstBy_get?_of_not (match_ c) (upd c) l j x hx, hx]
      rw [hmatch c x]
      simp [hid c (List.mem_cons_self _ _)]
    · rw [if_neg hf]
      apply ih _ j x _ (fun c' hc' => hid c' (List.mem_cons_of_mem _ hc'))
      rw [List.getElem?_append_left hj, hx]

/-- When the changed set carries no duplicate natural key, every appended
row is exactly the insert constructor applied to one of the changes. -/
theorem upsertFold_get?_appended
    (hmatch : ∀ c x, match_ c x = (getId x == cid c))
    (hins : ∀ l c, getId (ins l c) = cid c) :
    ∀ (changes : List γ), (changes.map cid).Nodup →
    ∀ (l : List α) (j : Nat) (r : α), l.length ≤ j →
      (changes.foldl (upsertList match_ upd ins) l)[j]? = some r →
      ∃ c ∈ changes, ∃ l', r = ins l' c := by
  intro changes
  induction changes with
  | nil =>
    intro _ l j r hj hr
    rw [List.foldl_nil] at hr
    have := (List.getElem?_eq_some_iff.mp hr).1
    omega
  | cons c cs ih =>
    intro hnodup l j r hj hr
    have hcs : (cs.map cid).Nodup := (List.nodup_cons.mp hnodup).2
    have hcnotin : cid c ∉ cs.map cid := (List.nodup_cons.mp hnodup).1
    rw [List.foldl_cons] at hr
    by_cases hf : (l.find? (match_ c)).isSome = true
    · rw [show upsertList match_ upd ins l c = updateFirstBy (match_ c) (upd c) l
        from by unfold upsertList; rw [if_pos hf]] at hr
      have hj2 : (updateFirstBy (match_ c) (upd c) l).length ≤ j := by
        rw [updateFirstBy_length]; exact hj
      rcases ih hcs _ j r hj2 hr with ⟨c', hc', l', he⟩
      exact ⟨c', List.mem_cons_of_mem _ hc', l', he⟩
    · rw [show upsertList match_ upd ins l c = l ++ [ins l c]
        from by unfold upsertList; rw [if_neg hf]] at hr
      rcases Nat.lt_or_ge j (l.length + 1) with hj2 | hj2
      · have hj3 : j = l.length := by omega
        subst hj3
        have hins0 : (l ++ [ins l c])[l.length]? = some (ins l c) :=
          List.getElem?_concat_length l (ins l c)
        have hunmoved : (cs.foldl (upsertList match_ upd ins)
            (l ++ [ins l c]))[l.length]? = some (ins l c) := by
          apply upsertFold_get?_untouched match_ upd ins getId cid hmatch
            cs _ l.length (ins l c) hins0
          intro c' hc'
          rw [hins l c]
          intro hcc
          exact hcnotin (hcc ▸ List.mem_map_of_mem cid hc')
        rw [hunmoved] at hr
        cases hr
        exact ⟨c, List.mem_cons_self _ _, l, rfl⟩
      · have hlen : (l ++ [ins l c]).length ≤ j := by simp; omega
        rcases ih hcs _ j r hlen hr with ⟨c', hc', l', he⟩
        exact ⟨c', List.mem_cons_of_mem _ hc', l', he⟩

/-- When the changed set carries no duplicate natural key, every
pre-existing row is, after the loop, either unchanged or the update
assignment of exactly one change applied to its old value. -/
theorem upsertFold_get?_front_cases
    (hmatch : ∀ c x, match_ c x = (getId x == cid c))
    (hupd : ∀ c x, getId (upd c x) = getId x) :
    ∀ (changes : List γ), (changes.map cid).Nodup →
    ∀ (l : List α) (i : Nat) (x : α), l[i]? = some x →
    ∀ r, (changes.foldl (upsertList match_ upd ins) l)[i]? = some r →
      r = x ∨ ∃ c ∈ changes, r = upd c x := by
  intro changes
  induction changes with
  | nil =>
    intro _ l i x hx r hr
    rw [List.foldl_nil] at hr
    rw [hx] at hr
    cases hr
    exact Or.inl rfl
  | cons c cs ih =>
    intro hnodup l i x hx r hr
    have hcs : (cs.map cid).Nodup := (List.nodup_cons.mp hnodup).2
    have hcnotin : cid c ∉ cs.map cid := (List.nodup_cons.mp hnodup).1
    have hi : i < l.length := (List.getElem?_eq_some_iff.mp hx).1
    rw [List.foldl_cons] at hr
    by_cases hf : (l.find? (match_ c)).isSome = true
    · rw [show upsertList match_ upd ins l c = updateFirstBy (match_ c) (upd c) l
        from by unfold upsertList; rw [if_pos hf]] at hr
      rcases updateFirstBy_get? (match_ c) (upd c) l i with he | ⟨y, hy, hpy, he⟩
      · rcases ih hcs _ i x (he.trans hx) r hr with h1 | ⟨c', hc', h1⟩
        · exact Or.inl h1
        · exact Or.inr ⟨c', List.mem_cons_of_mem _ hc', h1⟩
      · rw [hx] at hy
        cases hy
        have hidx : getId (upd c x) = cid c := by
          rw [hupd]
          rw [hmatch c x] at hpy
          simpa using hpy
        have hunmoved : (cs.foldl (upsertList match_ upd ins)
            (updateFirstBy (match_ c) (upd c) l))[i]? = some (upd c x) := by
          apply upsertFold_get?_untouched match_ upd ins getId cid hmatch
            cs _ i (upd c x) he
          intro c' hc'
          rw [hidx]
          intro hcc
          exact hcnotin (hcc ▸ List.mem_map_of_mem cid hc')
        rw [hunmoved] at hr
        cases hr
        exact Or.inr ⟨c, List.mem_cons_self _ _, rfl⟩
    · rw [show upsertList match_ upd ins l c = l ++ [ins l c]
        from by unfold upsertList; rw [if_neg hf]] at hr
      have hx2 : (l ++ [ins l c])[i]? = some x := by
        rw [List.getElem?_append_left hi, hx]
      rcases ih hcs _ i x hx2 r hr with h1 | ⟨c', hc', h1⟩
      · exact Or.inl h1
      · exact Or.inr ⟨c', List.mem_cons_of_mem _ hc', h1⟩

end UpsertIds

end UpsertFold

/-! ## Per-synchronizer lemmas -/

/-- All source-side `last_update` stamps are at most `tmax` (the state of
affairs when the wall clock has passed every source modification and no
new source write happens). -/
def sourceQuiescedBy (src : Source) (tmax : Nat) : Prop :=
  (∀ f ∈ src.films, f.last_update ≤ tmax) ∧
  (∀ c ∈ src.customers, c.last_update ≤ tmax) ∧
  (∀ s ∈ src.stores, s.last_update ≤ tmax) ∧
  (∀ a ∈ src.actors, a.last_update ≤ tmax) ∧
  (∀ c ∈ src.categories, c.last_update ≤ tmax) ∧
  (∀ r ∈ src.rentals, r.last_update ≤ tmax) ∧
  (∀ p ∈ src.payments, p.last_update ≤ tmax)

instance (src : Source) (tmax : Nat) : Decidable (sourceQuiescedBy src tmax) := by
  unfold sourceQuiescedBy; infer_instance

/- Empty extraction ⇒ the synchronizer is the identity on the target. -/

theorem sync_dim_film_of_empty (src : Source) (t : Target) (now : Nat)
    (h : filmChanges src t = []) : sync_dim_film src t now = t := by
  simp [sync_dim_film, h]

theorem sync_dim_customer_of_empty (src : Source) (t : Target) (now : Nat)
    (h : customerChanges src t = []) : sync_dim_customer src t now = t := by
  simp [sync_dim_customer, h]

theorem sync_dim_store_of_empty (src : Source) (t : Target) (now : Nat)
    (h : storeChanges src t = []) : sync_dim_store src t now = t := by
  simp [sync_dim_store, h]

theorem sync_dim_actor_of_empty (src : Source) (t : Target) (now : Nat)
    (h : actorChanges src t = []) : sync_dim_actor src t now = t := by
  simp [sync_dim_actor, h]

theorem sync_dim_category_of_empty (src : Source) (t : Target) (now : Nat)
    (h : categoryChanges src t = []) : sync_dim_category src t now = t := by
  simp [sync_dim_category, h]

theorem sync_fact_rental_of_empty (src : Source) (t : Target) (now : Nat)
    (h : rentalChanges src t = []) : sync_fact_rental src t now = t := by
  simp [sync_fact_rental, h]

theorem sync_fact_payment_of_empty (src : Source) (t : Target) (now : Nat)
    (h : paymentChanges src t = []) : sync_fact_payment src t now = t := by
  simp [sync_fact_payment, h]

/- The upsert loops never touch `sync_state`. -/

theorem foldl_upsertDimFilm_sync_state (now : Nat) (cs : List SakilaFilmRow)
    (t : Target) : (cs.foldl (upsertDimFilm now) t).sync_state = t.sync_state :=
  foldl_proj_eq (upsertDimFilm now) (fun b => b.sync_state) (fun b c => rfl) cs t

theorem foldl_upsertDimCustomer_sync_state (now : Nat)
    (cs : List (SakilaCustomerRow × String × String)) (t : Target) :
    (cs.foldl (upsertDimCustomer now) t).sync_state = t.sync_state :=
  foldl_proj_eq (upsertDimCustomer now) (fun b => b.sync_state) (fun b c => rfl) cs t

theorem foldl_upsertDimStore_sync_state (now : Nat)
    (cs : List (SakilaStoreRow × String × String)) (t : Target) :
    (cs.foldl (upsertDimStore now) t).sync_state = t.sync_state :=
  foldl_proj_eq (upsertDimStore now) (fun b => b.sync_state) (fun b c => rfl) cs t

theorem foldl_upsertDimActor_sync_state (now : Nat) (cs : List SakilaActorRow)
    (t : Target) : (cs.foldl (upsertDimActor now) t).sync_state = t.sync_state :=
  foldl_proj_eq (upsertDimActor now) (fun b => b.sync_state) (fun b c => rfl) cs t

theorem foldl_upsertDimCategory_sync_state (now : Nat) (cs : List SakilaCategoryRow)
    (t : Target) : (cs.foldl (upsertDimCategory now) t).sync_state = t.sync_state :=
  foldl_proj_eq (upsertDimCategory now) (fun b => b.sync_state) (fun b c => rfl) cs t

theorem foldl_upsertFactRental_sync_state (now : Nat) (fm cm : List (Nat × Nat))
    (cs : List (SakilaRentalRow × Nat)) (t : Target) :
    (cs.foldl (upsertFactRental now fm cm) t).sync_state = t.sync_state :=
  foldl_proj_eq (upsertFactRental now fm cm) (fun b => b.sync_state) (fun b c => rfl) cs t

theorem foldl_upsertFactPayment_sync_state (now : Nat) (cm sm : List (Nat × Nat))
    (cs : List (SakilaPaymentRow × Nat)) (t : Target) :
    (cs.foldl (upsertFactPayment now cm sm) t).sync_state = t.sync_state :=
  foldl_proj_eq (upsertFactPayment now cm sm) (fun b => b.sync_state) (fun b c => rfl) cs t

/-- `syncStateLookup` only reads the `sync_state` field. -/
theorem syncStateLookup_congr {t1 t2 : Target} (h : t1.sync_state = t2.sync_state)
    (n : String) : syncStateLookup t1 n = syncStateLookup t2 n := by
  unfold syncStateLookup; rw [h]

/- Each synchronizer leaves every other table's watermark untouched,
and writes `now` into its own when it processed at least one row. -/

theorem syncStateLookup_sync_dim_film (src : Source) (t : Target) (now : Nat)
    (n : String) (hne : n ≠ "dim_film") :
    syncStateLookup (sync_dim_film src t now) n = syncStateLookup t n := by
  unfold sync_dim_film
  by_cases h : (filmChanges src t).isEmpty = true
  · rw [if_pos h]
  · rw [if_neg h, syncStateLookup_update_other _ _ _ _ hne]
    exact syncStateLookup_congr (foldl_upsertDimFilm_sync_state now _ t) n

theorem syncStateLookup_sync_dim_film_self (src : Source) (t : Target) (now : Nat)
    (h : filmChanges src t ≠ []) :
    syncStateLookup (sync_dim_film src t now) "dim_film" = some now := by
  unfold sync_dim_film
  rw [if_neg (fun hc => h (List.isEmpty_iff.mp hc))]
  exact syncStateLookup_update_self _ _ _

theorem syncStateLookup_sync_dim_customer (src : Source) (t : Target) (now : Nat)
    (n : String) (hne : n ≠ "dim_customer") :
    syncStateLookup (sync_dim_customer src t now) n = syncStateLookup t n := by
  unfold sync_dim_customer
  by_cases h : (customerChanges src t).isEmpty = true
  · rw [if_pos h]
  · rw [if_neg h, syncStateLookup_update_other _ _ _ _ hne]
    exact syncStateLookup_congr (foldl_upsertDimCustomer_sync_state now _ t) n

theorem syncStateLookup_sync_dim_customer_self (src : Source) (t : Target) (now : Nat)
    (h : customerChanges src t ≠ []) :
    syncStateLookup (sync_dim_customer src t now) "dim_customer" = some now := by
  unfold sync_dim_customer
  rw [if_neg (fun hc => h (List.isEmpty_iff.mp hc))]
  exact syncStateLookup_update_self _ _ _

theorem syncStateLookup_sync_dim_store (src : Source) (t : Target) (now : Nat)
    (n : String) (hne : n ≠ "dim_store") :
    syncStateLookup (sync_dim_store src t now) n = syncStateLookup t n := by
  unfold sync_dim_store
  by_cases h : (storeChanges src t).isEmpty = true
  · rw [if_pos h]
  · rw [if_neg h, syncStateLookup_update_other _ _ _ _ hne]
    exact syncStateLookup_congr (foldl_upsertDimStore_sync_state now _ t) n

theorem syncStateLookup_sync_dim_store_self (src : Source) (t : Target) (now : Nat)
    (h : storeChanges src t ≠ []) :
    syncStateLookup (sync_dim_store src t now) "dim_store" = some now := by
  unfold sync_dim_store
  rw [if_neg (fun hc => h (List.isEmpty_iff.mp hc))]
  exact syncStateLookup_update_self _ _ _

theorem syncStateLookup_sync_dim_actor (src : Source) (t : Target) (now : Nat)
    (n : String) (hne : n ≠ "dim_actor") :
    syncStateLookup (sync_dim_actor src t now) n = syncStateLookup t n := by
  unfold sync_dim_actor
  by_cases h : (actorChanges src t).isEmpty = true
  · rw [if_pos h]
  · rw [if_neg h, syncStateLookup_update_other _ _ _ _ hne]
    exact syncStateLookup_congr (foldl_upsertDimActor_sync_state now _ t) n

theorem syncStateLookup_sync_dim_actor_self (src : Source) (t : Target) (now : Nat)
    (h : actorChanges src t ≠ []) :
    syncStateLookup (sync_dim_actor src t now) "dim_actor" = some now := by
  unfold sync_dim_actor
  rw [if_neg (fun hc => h (List.isEmpty_iff.mp hc))]
  exact syncStateLookup_update_self _ _ _

theorem syncStateLookup_sync_dim_category (src : Source) (t : Target) (now : Nat)
    (n : String) (hne : n ≠ "dim_category") :
    syncStateLookup (sync_dim_category src t now) n = syncStateLookup t n := by
  unfold sync_dim_category
  by_cases h : (categoryChanges src t).isEmpty = true
  · rw [if_pos h]
  · rw [if_neg h, syncStateLookup_update_other _ _ _ _ hne]
    exact syncStateLookup_congr (foldl_upsertDimCategory_sync_state now _ t) n

theorem syncStateLookup_sync_dim_category_self (src : Source) (t : Target) (now : Nat)
    (h : categoryChanges src t ≠ []) :
    syncStateLookup (sync_dim_category src t now) "dim_category" = some now := by
  unfold sync_dim_category
  rw [if_neg (fun hc => h (List.isEmpty_iff.mp hc))]
  exact syncStateLookup_update_self _ _ _

theorem syncStateLookup_sync_fact_rental (src : Source) (t : Target) (now : Nat)
    (n : String) (hne : n ≠ "fact_rental") :
    syncStateLookup (sync_fact_rental src t now) n = syncStateLookup t n := by
  unfold sync_fact_rental
  by_cases h : (rentalChanges src t).isEmpty = true
  · rw [if_pos h]
  · rw [if_neg h, syncStateLookup_update_other _ _ _ _ hne]
    exact syncStateLookup_congr (foldl_upsertFactRental_sync_state now _ _ _ t) n

theorem syncStateLookup_sync_fact_rental_self (src : Source) (t : Target) (now : Nat)
    (h : rentalChanges src t ≠ []) :
    syncStateLookup (sync_fact_rental src t now) "fact_rental" = some now := by
  unfold sync_fact_rental
  rw [if_neg (fun hc => h (List.isEmpty_iff.mp hc))]
  exact syncStateLookup_update_self _ _ _

theorem syncStateLookup_sync_fact_payment (src : Source) (t : Target) (now : Nat)
    (n : String) (hne : n ≠ "fact_payment") :
    syncStateLookup (sync_fact_payment src t now) n = syncStateLookup t n := by
  unfold sync_fact_payment
  by_cases h : (paymentChanges src t).isEmpty = true
  · rw [if_pos h]
  · rw [if_neg h, syncStateLookup_update_other _ _ _ _ hne]
    exact syncStateLookup_congr (foldl_upsertFactPayment_sync_state now _ _ _ t) n

theorem syncStateLookup_sync_fact_payment_self (src : Source) (t : Target) (now : Nat)
    (h : paymentChanges src t ≠ []) :
    syncStateLookup (sync_fact_payment src t now) "fact_payment" = some now := by
  unfold sync_fact_payment
  rw [if_neg (fun hc => h (List.isEmpty_iff.mp hc))]
  exact syncStateLookup_update_self _ _ _

theorem syncStateLookup_sync_bridge (src : Source) (t : Target) (n : String) :
    syncStateLookup (sync_bridge_tables src t) n = syncStateLookup t n := rfl

/- Each extraction query reads the target only through its own watermark. -/

theorem filmChanges_congr (src : Source) {t1 t2 : Target}
    (h : watermark t1 "dim_film" = watermark t2 "dim_film") :
    filmChanges src t1 = filmChanges src t2 := by
  unfold filmChanges; rw [h]

theorem customerChanges_congr (src : Source) {t1 t2 : Target}
    (h : watermark t1 "dim_customer" = watermark t2 "dim_customer") :
    customerChanges src t1 = customerChanges src t2 := by
  unfold customerChanges; rw [h]

theorem storeChanges_congr (src : Source) {t1 t2 : Target}
    (h : watermark t1 "dim_store" = watermark t2 "dim_store") :
    storeChanges src t1 = storeChanges src t2 := by
  unfold storeChanges; rw [h]

theorem actorChanges_congr (src : Source) {t1 t2 : Target}
    (h : watermark t1 "dim_actor" = watermark t2 "dim_actor") :
    actorChanges src t1 = actorChanges src t2 := by
  unfold actorChanges; rw [h]

theorem categoryChanges_congr (src : Source) {t1 t2 : Target}
    (h : watermark t1 "dim_category" = watermark t2 "dim_category") :
    categoryChanges src t1 = categoryChanges src t2 := by
  unfold categoryChanges; rw [h]

theorem rentalChanges_congr (src : Source) {t1 t2 : Target}
    (h : watermark t1 "fact_rental" = watermark t2 "fact_rental") :
    rentalChanges src t1 = rentalChanges src t2 := by
  unfold rentalChanges; rw [h]

theorem paymentChanges_congr (src : Source) {t1 t2 : Target}
    (h : watermark t1 "fact_payment" = watermark t2 "fact_payment") :
    paymentChanges src t1 = paymentChanges src t2 := by
  unfold paymentChanges; rw [h]

/- A watermark at or past every source stamp makes the extraction empty. -/

theorem filmChanges_of_le_watermark (src : Source) (t : Target) (tmax : Nat)
    (hq : ∀ f ∈ src.films, f.last_update ≤ tmax)
    (hw : tmax ≤ watermark t "dim_film") : filmChanges src t = [] := by
  unfold filmChanges
  rw [List.filter_eq_nil_iff]
  intro f hf
  have := hq f hf
  simp only [decide_eq_true_eq]
  omega

theorem customerChanges_of_le_watermark (src : Source) (t : Target) (tmax : Nat)
    (hq : ∀ c ∈ src.customers, c.last_update ≤ tmax)
    (hw : tmax ≤ watermark t "dim_customer") : customerChanges src t = [] := by
  unfold customerChanges
  rw [List.filter_eq_nil_iff]
  intro x hx
  rcases List.mem_flatMap.mp hx with ⟨c, hc, hx2⟩
  rcases List.mem_flatMap.mp hx2 with ⟨a, _, hx3⟩
  rcases List.mem_flatMap.mp hx3 with ⟨ci, _, hx4⟩
  rcases List.mem_map.mp hx4 with ⟨co, _, rfl⟩
  have := hq c hc
  simp only [decide_eq_true_eq]
  omega

theorem storeChanges_of_le_watermark (src : Source) (t : Target) (tmax : Nat)
    (hq : ∀ s ∈ src.stores, s.last_update ≤ tmax)
    (hw : tmax ≤ watermark t "dim_store") : storeChanges src t = [] := by
  unfold storeChanges
  rw [List.filter_eq_nil_iff]
  intro x hx
  rcases List.mem_flatMap.mp hx with ⟨s, hs, hx2⟩
  rcases List.mem_flatMap.mp hx2 with ⟨a, _, hx3⟩
  rcases List.mem_flatMap.mp hx3 with ⟨ci, _, hx4⟩
  rcases List.mem_map.mp hx4 with ⟨co, _, rfl⟩
  have := hq s hs
  simp only [decide_eq_true_eq]
  omega

theorem actorChanges_of_le_watermark (src : Source) (t : Target) (tmax : Nat)
    (hq : ∀ a ∈ src.actors, a.last_update ≤ tmax)
    (hw : tmax ≤ watermark t "dim_actor") : actorChanges src t = [] := by
  unfold actorChanges
  rw [List.filter_eq_nil_iff]
  intro a ha
  have := hq a ha
  simp only [decide_eq_true_eq]
  omega

theorem categoryChanges_of_le_watermark (src : Source) (t : Target) (tmax : Nat)
    (hq : ∀ c ∈ src.categories, c.last_update ≤ tmax)
    (hw : tmax ≤ watermark t "dim_category") : categoryChanges src t = [] := by
  unfold categoryChanges
  rw [List.filter_eq_nil_iff]
  intro c hc
  have := hq c hc
  simp only [decide_eq_true_eq]
  omega

theorem rentalChanges_of_le_watermark (src : Source) (t : Target) (tmax : Nat)
    (hq : ∀ r ∈ src.rentals, r.last_update ≤ tmax)
    (hw : tmax ≤ watermark t "fact_rental") : rentalChanges src t = [] := by
  unfold rentalChanges
  rw [List.filter_eq_nil_iff]
  intro x hx
  rcases List.mem_flatMap.mp hx with ⟨r, hr, hx2⟩
  rcases List.mem_map.mp hx2 with ⟨i, _, rfl⟩
  have := hq r hr
  simp only [decide_eq_true_eq]
  omega

theorem paymentChanges_of_le_watermark (src : Source) (t : Target) (tmax : Nat)
    (hq : ∀ p ∈ src.payments, p.last_update ≤ tmax)
    (hw : tmax ≤ watermark t "fact_payment") : paymentChanges src t = [] := by
  unfold paymentChanges
  rw [List.filter_eq_nil_iff]
  intro x hx
  rcases List.mem_flatMap.mp hx with ⟨p, hp, hx2⟩
  rcases List.mem_map.mp hx2 with ⟨s, _, rfl⟩
  have := hq p hp
  simp only [decide_eq_true_eq]
  omega

/-- The bridge rebuild is idempotent: it only rewrites the two bridge
tables, from data (dimension tables, source associations) it does not
change. -/
theorem sync_bridge_tables_idem (src : Source) (t : Target) :
    sync_bridge_tables src (sync_bridge_tables src t) = sync_bridge_tables src t := rfl

/- `update_sync_state` touches no table, only `sync_state`. -/

theorem update_sync_state_dim_film (t : Target) (n : String) (ts : Nat) :
    (update_sync_state t n ts).dim_film = t.dim_film := by
  unfold update_sync_state; split <;> rfl

theorem update_sync_state_fact_rental (t : Target) (n : String) (ts : Nat) :
    (update_sync_state t n ts).fact_rental = t.fact_rental := by
  unfold update_sync_state; split <;> rfl

theorem update_sync_state_fact_payment (t : Target) (n : String) (ts : Nat) :
    (update_sync_state t n ts).fact_payment = t.fact_payment := by
  unfold update_sync_state; split <;> rfl

/- The Target-level upsert folds act on their own table exactly as the
list-level loop. -/

theorem foldl_upsertDimFilm_dim_film (now : Nat) (cs : List SakilaFilmRow) :
    ∀ t : Target, (cs.foldl (upsertDimFilm now) t).dim_film =
      cs.foldl (upsertList matchDimFilm (updDimFilm now) (insDimFilm now)) t.dim_film := by
  induction cs with
  | nil => intro t; rfl
  | cons c cs ih =>
    intro t
    rw [List.foldl_cons, List.foldl_cons, ih]
    rfl

theorem foldl_upsertFactRental_fact_rental (now : Nat) (fm cm : List (Nat × Nat))
    (cs : List (SakilaRentalRow × Nat)) :
    ∀ t : Target, (cs.foldl (upsertFactRental now fm cm) t).fact_rental =
      cs.foldl (upsertList matchFactRental (updFactRental now)
        (insFactRental now fm cm)) t.fact_rental := by
  induction cs with
  | nil => intro t; rfl
  | cons c cs ih =>
    intro t
    rw [List.foldl_cons, List.foldl_cons, ih]
    rfl

theorem foldl_upsertFactPayment_fact_payment (now : Nat) (cm sm : List (Nat × Nat))
    (cs : List (SakilaPaymentRow × Nat)) :
    ∀ t : Target, (cs.foldl (upsertFactPayment now cm sm) t).fact_payment =
      cs.foldl (upsertList matchFactPayment (updFactPayment now cm sm)
        (insFactPayment now cm sm)) t.fact_payment := by
  induction cs with
  | nil => intro t; rfl
  | cons c cs ih =>
    intro t
    rw [List.foldl_cons, List.foldl_cons, ih]
    rfl

/-! ## Claim C3 -/

/-- C3: for every dimension and fact synchronizer, when the extraction
query returns no source row whose `last_update` is strictly above the
current watermark, the synchronizer returns with the whole target state —
tables and `SyncState` watermark — exactly as it was (the watermark is
neither advanced, created nor reset). -/
theorem spec_c3_empty_extraction_no_op (src : Source) (t : Target) (now : Nat) :
    (filmChanges src t = [] → sync_dim_film src t now = t) ∧
    (customerChanges src t = [] → sync_dim_customer src t now = t) ∧
    (storeChanges src t = [] → sync_dim_store src t now = t) ∧
    (actorChanges src t = [] → sync_dim_actor src t now = t) ∧
    (categoryChanges src t = [] → sync_dim_category src t now = t) ∧
    (rentalChanges src t = [] → sync_fact_rental src t now = t) ∧
    (paymentChanges src t = [] → sync_fact_payment src t now = t) :=
  ⟨sync_dim_film_of_empty src t now,
   sync_dim_customer_of_empty src t now,
   sync_dim_store_of_empty src t now,
   sync_dim_actor_of_empty src t now,
   sync_dim_category_of_empty src t now,
   sync_fact_rental_of_empty src t now,
   sync_fact_payment_of_empty src t now⟩

/-- Witness for C3 at a concrete input (empty source, empty target,
`now` = 5): every synchronizer is a no-op there. -/
theorem spec_c3_witness :
    sync_dim_film emptySource emptyTarget 5 = emptyTarget ∧
    sync_dim_customer emptySource emptyTarget 5 = emptyTarget ∧
    sync_dim_store emptySource emptyTarget 5 = emptyTarget ∧
    sync_dim_actor emptySource emptyTarget 5 = emptyTarget ∧
    sync_dim_category emptySource emptyTarget 5 = emptyTarget ∧
    sync_fact_rental emptySource emptyTarget 5 = emptyTarget ∧
    sync_fact_payment emptySource emptyTarget 5 = emptyTarget :=
  ⟨(spec_c3_empty_extraction_no_op emptySource emptyTarget 5).1 (by decide),
   (spec_c3_empty_extraction_no_op emptySource emptyTarget 5).2.1 (by decide),
   (spec_c3_empty_extraction_no_op emptySource emptyTarget 5).2.2.1 (by decide),
   (spec_c3_empty_extraction_no_op emptySource emptyTarget 5).2.2.2.1 (by decide),
   (spec_c3_empty_extraction_no_op emptySource emptyTarget 5).2.2.2.2.1 (by decide),
   (spec_c3_empty_extraction_no_op emptySource emptyTarget 5).2.2.2.2.2.1 (by decide),
   (spec_c3_empty_extraction_no_op emptySource emptyTarget 5).2.2.2.2.2.2 (by decide)⟩

/-! ## Claim C7 -/

/-- C7: every synchronizer that processed at least one changed row leaves
the table's `SyncState` watermark equal to the wall clock `now` of the
run (whatever the extracted rows' `last_update` values were — `now` is a
free parameter here, independent of the source), creating the `SyncState`
row when absent; and when no `SyncState` row exists the watermark used
for extraction is the minimal timestamp.  In this embedding the watermark
write and the row mutations land in the one returned state — the single
transaction committed at the end of the synchronizer. -/
theorem spec_c7_watermark_semantics (src : Source) (t : Target) (now : Nat) :
    (filmChanges src t ≠ [] →
      syncStateLookup (sync_dim_film src t now) "dim_film" = some now) ∧
    (customerChanges src t ≠ [] →
      syncStateLookup (sync_dim_customer src t now) "dim_customer" = some now) ∧
    (storeChanges src t ≠ [] →
      syncStateLookup (sync_dim_store src t now) "dim_store" = some now) ∧
    (actorChanges src t ≠ [] →
      syncStateLookup (sync_dim_actor src t now) "dim_actor" = some now) ∧
    (categoryChanges src t ≠ [] →
      syncStateLookup (sync_dim_category src t now) "dim_category" = some now) ∧
    (rentalChanges src t ≠ [] →
      syncStateLookup (sync_fact_rental src t now) "fact_rental" = some now) ∧
    (paymentChanges src t ≠ [] →
      syncStateLookup (sync_fact_payment src t now) "fact_payment" = some now) ∧
    (∀ n : String, syncStateLookup t n = none → watermark t n = 0) :=
  ⟨syncStateLookup_sync_dim_film_self src t now,
   syncStateLookup_sync_dim_customer_self src t now,
   syncStateLookup_sync_dim_store_self src t now,
   syncStateLookup_sync_dim_actor_self src t now,
   syncStateLookup_sync_dim_category_self src t now,
   syncStateLookup_sync_fact_rental_self src t now,
   syncStateLookup_sync_fact_payment_self src t now,
   fun n h => by unfold watermark; rw [h]; rfl⟩

/-- Witness for C7 at a concrete input: on `wSource` (every stamp is 5)
against the empty target with `now` = 9, each synchronizer extracts one
row and each watermark comes out as 9 (not 5, the maximum observed source
stamp). -/
theorem spec_c7_witness :
    syncStateLookup (sync_dim_film wSource emptyTarget 9) "dim_film" = some 9 ∧
    syncStateLookup (sync_dim_customer wSource emptyTarget 9) "dim_customer" = some 9 ∧
    syncStateLookup (sync_dim_store wSource emptyTarget 9) "dim_store" = some 9 ∧
    syncStateLookup (sync_dim_actor wSource emptyTarget 9) "dim_actor" = some 9 ∧
    syncStateLookup (sync_dim_category wSource emptyTarget 9) "dim_category" = some 9 ∧
    syncStateLookup (sync_fact_rental wSource emptyTarget 9) "fact_rental" = some 9 ∧
    syncStateLookup (sync_fact_payment wSource emptyTarget 9) "fact_payment" = some 9 ∧
    watermark emptyTarget "dim_film" = 0 :=
  ⟨(spec_c7_watermark_semantics wSource emptyTarget 9).1 (by decide),
   (spec_c7_watermark_semantics wSource emptyTarget 9).2.1 (by decide),
   (spec_c7_watermark_semantics wSource emptyTarget 9).2.2.1 (by decide),
   (spec_c7_watermark_semantics wSource emptyTarget 9).2.2.2.1 (by decide),
   (spec_c7_watermark_semantics wSource emptyTarget 9).2.2.2.2.1 (by decide),
   (spec_c7_watermark_semantics wSource emptyTarget 9).2.2.2.2.2.1 (by decide),
   (spec_c7_watermark_semantics wSource emptyTarget 9).2.2.2.2.2.2.1 (by decide),
   (spec_c7_watermark_semantics wSource emptyTarget 9).2.2.2.2.2.2.2 "dim_film" (by decide)⟩

/-! ## Claim C1 -/

/-- C1: when the target holds at most one row per natural key, one run of
`sync_dim_film` (resp. `sync_fact_rental`) preserves that, and every
pre-existing row keeps both its natural key and its surrogate key: the
upsert updates the matched row in place and inserts a fresh row only when
no row with that natural key exists.  Applied run after run from the
empty target, this gives at most one row and a never-changing surrogate
key per natural key over any number of syncs. -/
theorem spec_c1_upsert_uniqueness (src : Source) (t : Target) (now : Nat)
    (hf : (t.dim_film.map (fun r => r.film_id)).Nodup)
    (hr : (t.fact_rental.map (fun f => f.rental_id)).Nodup) :
    ((sync_dim_film src t now).dim_film.map (fun r => r.film_id)).Nodup ∧
    (∀ r ∈ t.dim_film, ∃ r' ∈ (sync_dim_film src t now).dim_film,
        r'.film_id = r.film_id ∧ r'.film_key = r.film_key) ∧
    ((sync_fact_rental src t now).fact_rental.map (fun f => f.rental_id)).Nodup ∧
    (∀ f ∈ t.fact_rental, ∃ f' ∈ (sync_fact_rental src t now).fact_rental,
        f'.rental_id = f.rental_id ∧ f'.fact_rental_key = f.fact_rental_key) := by
  have hfilm : ((sync_dim_film src t now).dim_film.map (fun r => r.film_id)).Nodup ∧
      (∀ r ∈ t.dim_film, ∃ r' ∈ (sync_dim_film src t now).dim_film,
        r'.film_id = r.film_id ∧ r'.film_key = r.film_key) := by
    by_cases he : (filmChanges src t).isEmpty = true
    · rw [sync_dim_film_of_empty src t now (List.isEmpty_iff.mp he)]
      exact ⟨hf, fun r hr2 => ⟨r, hr2, rfl, rfl⟩⟩
    · have hd : (sync_dim_film src t now).dim_film =
          (filmChanges src t).foldl
            (upsertList matchDimFilm (updDimFilm now) (insDimFilm now)) t.dim_film := by
        simp only [sync_dim_film]
        rw [if_neg he, update_sync_state_dim_film, foldl_upsertDimFilm_dim_film]
      rw [hd]
      refine ⟨?_, ?_⟩
      · exact upsertFold_nodup_ids matchDimFilm (updDimFilm now) (insDimFilm now)
          (fun r => r.film_id) (fun c => c.film_id)
          (fun c x => rfl) (fun c x => rfl) (fun l c => rfl) _ _ hf
      · intro r hr2
        exact upsertFold_stable matchDimFilm (updDimFilm now) (insDimFilm now)
          (fun r => r.film_id) (fun r => r.film_key)
          (fun c x => rfl) (fun c x => rfl) _ _ r hr2
  have hrent : ((sync_fact_rental src t now).fact_rental.map (fun f => f.rental_id)).Nodup ∧
      (∀ f ∈ t.fact_rental, ∃ f' ∈ (sync_fact_rental src t now).fact_rental,
        f'.rental_id = f.rental_id ∧ f'.fact_rental_key = f.fact_rental_key) := by
    by_cases he : (rentalChanges src t).isEmpty = true
    · rw [sync_fact_rental_of_empty src t now (List.isEmpty_iff.mp he)]
      exact ⟨hr, fun f hf2 => ⟨f, hf2, rfl, rfl⟩⟩
    · have hd : (sync_fact_rental src t now).fact_rental =
          (rentalChanges src t).foldl
            (upsertList matchFactRental (updFactRental now)
              (insFactRental now (filmKeyMap t) (customerKeyMap t))) t.fact_rental := by
        simp only [sync_fact_rental]
        rw [if_neg he, update_sync_state_fact_rental,
          foldl_upsertFactRental_fact_rental]
      rw [hd]
      refine ⟨?_, ?_⟩
      · exact upsertFold_nodup_ids matchFactRental (updFactRental now)
          (insFactRental now (filmKeyMap t) (customerKeyMap t))
          (fun f => f.rental_id) (fun c => c.1.rental_id)
          (fun c x => rfl) (fun c x => rfl) (fun l c => rfl) _ _ hr
      · intro f hf2
        exact upsertFold_stable matchFactRental (updFactRental now)
          (insFactRental now (filmKeyMap t) (customerKeyMap t))
          (fun f => f.rental_id) (fun f => f.fact_rental_key)
          (fun c x => rfl) (fun c x => rfl) _ _ f hf2
  exact ⟨hfilm.1, hfilm.2, hrent.1, hrent.2⟩

/-- Witness for C1 at a concrete input: target `c10Target` (one film, one
rental fact) synced against `c10Source` at `now` = 9. -/
theorem spec_c1_witness :
    ((c10Target.dim_film.map (fun r => r.film_id)).Nodup) ∧
    ((c10Target.fact_rental.map (fun f => f.rental_id)).Nodup) ∧
    (((sync_dim_film c10Source c10Target 9).dim_film.map (fun r => r.film_id)).Nodup ∧
      (∀ r ∈ c10Target.dim_film, ∃ r' ∈ (sync_dim_film c10Source c10Target 9).dim_film,
          r'.film_id = r.film_id ∧ r'.film_key = r.film_key) ∧
      ((sync_fact_rental c10Source c10Target 9).fact_rental.map
        (fun f => f.rental_id)).Nodup ∧
      (∀ f ∈ c10Target.fact_rental,
        ∃ f' ∈ (sync_fact_rental c10Source c10Target 9).fact_rental,
          f'.rental_id = f.rental_id ∧ f'.fact_rental_key = f.fact_rental_key)) :=
  ⟨by decide, by decide,
   spec_c1_upsert_uniqueness c10Source c10Target 9 (by decide) (by decide)⟩

/-! ## Claim C10 -/

/-- C10: `sync_fact_rental` never assigns `store_key` — appended rows
carry `store_key = NULL`, and on every pre-existing row the fields
`rental_id`, `date_key_rented`, `film_key`, `customer_key`, `store_key`,
`staff_id` (and the surrogate key) keep their previous values, whatever
the current key maps or source row would now resolve; only
`date_key_returned`, `rental_duration_days` and `last_update` can change. -/
theorem spec_c10_rental_update_frame (src : Source) (t : Target) (now : Nat) :
    t.fact_rental.length ≤ (sync_fact_rental src t now).fact_rental.length ∧
    (∀ i : Nat, i < t.fact_rental.length →
      (((sync_fact_rental src t now).fact_rental)[i]?).map (fun f =>
        (f.rental_id, f.date_key_rented, f.film_key, f.customer_key,
         f.store_key, f.staff_id, f.fact_rental_key)) =
      ((t.fact_rental)[i]?).map (fun f =>
        (f.rental_id, f.date_key_rented, f.film_key, f.customer_key,
         f.store_key, f.staff_id, f.fact_rental_key))) ∧
    (∀ (j : Nat) (r : FactRentalRow), t.fact_rental.length ≤ j →
      ((sync_fact_rental src t now).fact_rental)[j]? = some r →
      r.store_key = none) := by
  by_cases he : (rentalChanges src t).isEmpty = true
  · rw [sync_fact_rental_of_empty src t now (List.isEmpty_iff.mp he)]
    refine ⟨Nat.le_refl _, fun i _ => rfl, ?_⟩
    intro j r hj hr
    have := (List.getElem?_eq_some_iff.mp hr).1
    omega
  · have hd : (sync_fact_rental src t now).fact_rental =
        (rentalChanges src t).foldl
          (upsertList matchFactRental (updFactRental now)
            (insFactRental now (filmKeyMap t) (customerKeyMap t))) t.fact_rental := by
      simp only [sync_fact_rental]
      rw [if_neg he, update_sync_state_fact_rental,
        foldl_upsertFactRental_fact_rental]
    rw [hd]
    refine ⟨upsertFold_length_le _ _ _ _ _, ?_, ?_⟩
    · intro i hi
      exact upsertFold_get?_proj matchFactRental (updFactRental now)
        (insFactRental now (filmKeyMap t) (customerKeyMap t))
        (fun f => (f.rental_id, f.date_key_rented, f.film_key, f.customer_key,
          f.store_key, f.staff_id, f.fact_rental_key))
        (fun c x => rfl) _ _ i hi
    · intro j r hj hr
      exact upsertFold_get?_suffix_pred matchFactRental (updFactRental now)
        (insFactRental now (filmKeyMap t) (customerKeyMap t))
        (fun f => f.store_key = none) (fun c x h => h) (fun l c => rfl)
        _ _ j r hj hr

/-- Witness for C10: the update path at `c10Target` (the pre-existing
fact row at position 0 keeps its frozen fields) and the insert path at
the empty target (the appended row has `store_key = NULL`). -/
theorem spec_c10_witness :
    ((((sync_fact_rental c10Source c10Target 9).fact_rental)[0]?).map (fun f =>
        (f.rental_id, f.date_key_rented, f.film_key, f.customer_key,
         f.store_key, f.staff_id, f.fact_rental_key)) =
      ((c10Target.fact_rental)[0]?).map (fun f =>
        (f.rental_id, f.date_key_rented, f.film_key, f.customer_key,
         f.store_key, f.staff_id, f.fact_rental_key))) ∧
    c10InsRow.store_key = none :=
  ⟨(spec_c10_rental_update_frame c10Source c10Target 9).2.1 0 (by decide),
   (spec_c10_rental_update_frame c10Source emptyTarget 9).2.2 0 c10InsRow
     (by decide) (by decide)⟩

/-! ## Bridge rebuild lemmas -/

theorem dictGet_eq_some {m : List (Nat × Nat)} {k v : Nat}
    (h : dictGet m k = some v) : (k, v) ∈ m := by
  unfold dictGet at h
  cases hf : m.reverse.find? (fun p => p.1 == k) with
  | none => rw [hf] at h; cases h
  | some p =>
    rw [hf] at h
    have hp := List.find?_some hf
    have hm := List.mem_of_find?_eq_some hf
    rw [List.mem_reverse] at hm
    have h1 : p.1 = k := by simpa using hp
    have h2 : p.2 = v := by simpa using h
    have : p = (k, v) := by
      cases p
      simp_all
    rw [← this]
    exact hm

theorem filmKeyMap_mem {t : Target} {k v : Nat} (h : (k, v) ∈ filmKeyMap t) :
    ∃ r ∈ t.dim_film, r.film_id = k ∧ r.film_key = v := by
  unfold filmKeyMap get_surrogate_key_map at h
  rcases List.mem_map.mp h with ⟨r, hr, he⟩
  refine ⟨r, hr, ?_, ?_⟩ <;> simp_all [Prod.ext_iff]

theorem actorKeyMap_mem {t : Target} {k v : Nat} (h : (k, v) ∈ actorKeyMap t) :
    ∃ r ∈ t.dim_actor, r.actor_id = k ∧ r.actor_key = v := by
  unfold actorKeyMap get_surrogate_key_map at h
  rcases List.mem_map.mp h with ⟨r, hr, he⟩
  refine ⟨r, hr, ?_, ?_⟩ <;> simp_all [Prod.ext_iff]

theorem categoryKeyMap_mem {t : Target} {k v : Nat} (h : (k, v) ∈ categoryKeyMap t) :
    ∃ r ∈ t.dim_category, r.category_id = k ∧ r.category_key = v := by
  unfold categoryKeyMap get_surrogate_key_map at h
  rcases List.mem_map.mp h with ⟨r, hr, he⟩
  refine ⟨r, hr, ?_, ?_⟩ <;> simp_all [Prod.ext_iff]

theorem bridgeFALink_cases (fm am : List (Nat × Nat)) (link : SakilaFilmActorRow) :
    bridgeFALink fm am link =
      (match dictGet fm link.film_id, dictGet am link.actor_id with
        | some f, some a => if f != 0 && a != 0 then some ⟨f, a⟩ else none
        | _, _ => none) := rfl

theorem buildBridgeFA_mem {links : List SakilaFilmActorRow}
    {fm am : List (Nat × Nat)} {b : BridgeFilmActorRow}
    (hb : b ∈ buildBridgeFA links fm am) :
    ∃ link ∈ links, dictGet fm link.film_id = some b.film_key ∧
      dictGet am link.actor_id = some b.actor_key := by
  unfold buildBridgeFA at hb
  rcases List.mem_filterMap.mp hb with ⟨link, hl, hf⟩
  refine ⟨link, hl, ?_⟩
  rw [bridgeFALink_cases] at hf
  cases h1 : dictGet fm link.film_id with
  | none => rw [h1] at hf; cases hf
  | some f =>
    cases h2 : dictGet am link.actor_id with
    | none => rw [h1, h2] at hf; cases hf
    | some a =>
      rw [h1, h2] at hf
      have hf2 : (if (f != 0 && a != 0) = true then
          some (⟨f, a⟩ : BridgeFilmActorRow) else none) = some b := hf
      by_cases hcond : (f != 0 && a != 0) = true
      · rw [if_pos hcond] at hf2
        cases hf2
        exact ⟨rfl, rfl⟩
      · rw [if_neg hcond] at hf2
        cases hf2

theorem bridgeFCLink_cases (fm cm : List (Nat × Nat)) (link : SakilaFilmCategoryRow) :
    bridgeFCLink fm cm link =
      (match dictGet fm link.film_id, dictGet cm link.category_id with
        | some f, some c => if f != 0 && c != 0 then some ⟨f, c⟩ else none
        | _, _ => none) := rfl

theorem buildBridgeFC_mem {links : List SakilaFilmCategoryRow}
    {fm cm : List (Nat × Nat)} {b : BridgeFilmCategoryRow}
    (hb : b ∈ buildBridgeFC links fm cm) :
    ∃ link ∈ links, dictGet fm link.film_id = some b.film_key ∧
      dictGet cm link.category_id = some b.category_key := by
  unfold buildBridgeFC at hb
  rcases List.mem_filterMap.mp hb with ⟨link, hl, hf⟩
  refine ⟨link, hl, ?_⟩
  rw [bridgeFCLink_cases] at hf
  cases h1 : dictGet fm link.film_id with
  | none => rw [h1] at hf; cases hf
  | some f =>
    cases h2 : dictGet cm link.category_id with
    | none => rw [h1, h2] at hf; cases hf
    | some c =>
      rw [h1, h2] at hf
      have hf2 : (if (f != 0 && c != 0) = true then
          some (⟨f, c⟩ : BridgeFilmCategoryRow) else none) = some b := hf
      by_cases hcond : (f != 0 && c != 0) = true
      · rw [if_pos hcond] at hf2
        cases hf2
        exact ⟨rfl, rfl⟩
      · rw [if_neg hcond] at hf2
        cases hf2

theorem buildBridgeFA_length (links : List SakilaFilmActorRow)
    (fm am : List (Nat × Nat))
    (hf : ∀ k v, dictGet fm k = some v → 0 < v)
    (ha : ∀ k v, dictGet am k = some v → 0 < v) :
    (buildBridgeFA links fm am).length =
      (links.filter (fun l => (dictGet fm l.film_id).isSome &&
        (dictGet am l.actor_id).isSome)).length := by
  induction links with
  | nil => rfl
  | cons l ls ih =>
    unfold buildBridgeFA at ih ⊢
    rw [List.filterMap_cons, List.filter_cons]
    cases h1 : dictGet fm l.film_id with
    | none =>
      have he : bridgeFALink fm am l = none := by
        rw [bridgeFALink_cases, h1]
      rw [he]
      simp only [h1, Option.isSome_none, Bool.false_and, Bool.false_eq_true,
        if_false]
      exact ih
    | some f =>
      cases h2 : dictGet am l.actor_id with
      | none =>
        have he : bridgeFALink fm am l = none := by
          rw [bridgeFALink_cases, h1, h2]
        rw [he]
        simp only [h1, h2, Option.isSome_none, Option.isSome_some,
          Bool.true_and, Bool.false_eq_true, if_false]
        exact ih
      | some a =>
        have hf0 : (f != 0) = true := by
          have := hf _ _ h1; simp; omega
        have ha0 : (a != 0) = true := by
          have := ha _ _ h2; simp; omega
        have he : bridgeFALink fm am l = some ⟨f, a⟩ := by
          rw [bridgeFALink_cases, h1, h2]
          show (if (f != 0 && a != 0) = true then
            some (⟨f, a⟩ : BridgeFilmActorRow) else none) = some ⟨f, a⟩
          simp [hf0, ha0]
        rw [he]
        simp only [h1, h2, Option.isSome_some, Bool.true_and, if_true,
          List.length_cons]
        rw [ih]

theorem buildBridgeFC_length (links : List SakilaFilmCategoryRow)
    (fm cm : List (Nat × Nat))
    (hf : ∀ k v, dictGet fm k = some v → 0 < v)
    (hc : ∀ k v, dictGet cm k = some v → 0 < v) :
    (buildBridgeFC links fm cm).length =
      (links.filter (fun l => (dictGet fm l.film_id).isSome &&
        (dictGet cm l.category_id).isSome)).length := by
  induction links with
  | nil => rfl
  | cons l ls ih =>
    unfold buildBridgeFC at ih ⊢
    rw [List.filterMap_cons, List.filter_cons]
    cases h1 : dictGet fm l.film_id with
    | none =>
      have he : bridgeFCLink fm cm l = none := by
        rw [bridgeFCLink_cases, h1]
      rw [he]
      simp only [h1, Option.isSome_none, Bool.false_and, Bool.false_eq_true,
        if_false]
      exact ih
    | some f =>
      cases h2 : dictGet cm l.category_id with
      | none =>
        have he : bridgeFCLink fm cm l = none := by
          rw [bridgeFCLink_cases, h1, h2]
        rw [he]
        simp only [h1, h2, Option.isSome_none, Option.isSome_some,
          Bool.true_and, Bool.false_eq_true, if_false]
        exact ih
      | some c =>
        have hf0 : (f != 0) = true := by
          have := hf _ _ h1; simp; omega
        have hc0 : (c != 0) = true := by
          have := hc _ _ h2; simp; omega
        have he : bridgeFCLink fm cm l = some ⟨f, c⟩ := by
          rw [bridgeFCLink_cases, h1, h2]
          show (if (f != 0 && c != 0) = true then
            some (⟨f, c⟩ : BridgeFilmCategoryRow) else none) = some ⟨f, c⟩
          simp [hf0, hc0]
        rw [he]
        simp only [h1, h2, Option.isSome_some, Bool.true_and, if_true,
          List.length_cons]
        rw [ih]

/-- Every bridge rebuild reestablishes bridge referential integrity,
whatever state it starts from: kept rows' keys come out of the key maps,
which are built from the current dimension tables. -/
theorem bridgeRefsOk_sync_bridge_tables (src : Source) (t : Target) :
    bridgeRefsOk (sync_bridge_tables src t) := by
  constructor
  · intro b hb
    have hb2 : b ∈ buildBridgeFA src.film_actors (filmKeyMap t) (actorKeyMap t) := hb
    rcases buildBridgeFA_mem hb2 with ⟨link, _, h1, h2⟩
    rcases filmKeyMap_mem (dictGet_eq_some h1) with ⟨r, hr, _, hk⟩
    rcases actorKeyMap_mem (dictGet_eq_some h2) with ⟨r', hr', _, hk'⟩
    exact ⟨⟨r, hr, hk⟩, ⟨r', hr', hk'⟩⟩
  · intro b hb
    have hb2 : b ∈ buildBridgeFC src.film_categories (filmKeyMap t) (categoryKeyMap t) := hb
    rcases buildBridgeFC_mem hb2 with ⟨link, _, h1, h2⟩
    rcases filmKeyMap_mem (dictGet_eq_some h1) with ⟨r, hr, _, hk⟩
    rcases categoryKeyMap_mem (dictGet_eq_some h2) with ⟨r', hr', _, hk'⟩
    exact ⟨⟨r, hr, hk⟩, ⟨r', hr', hk'⟩⟩

/-! ## Claim C5 -/

/-- C5: after a bridge rebuild, both surrogate keys of every bridge row
resolve to existing dimension rows; and (for a target whose surrogate
keys are positive, as SQLite allocates them) the number of bridge rows of
each kind equals the number of source association rows of that kind whose
two endpoint natural keys are both present in the corresponding key maps
— associations with an unresolvable endpoint are silently dropped, they
never raise. -/
theorem spec_c5_bridge_rebuild (src : Source) (t : Target)
    (hpos : surrogatesPositive t) :
    (∀ b ∈ (sync_bridge_tables src t).bridge_film_actor,
      (∃ r ∈ (sync_bridge_tables src t).dim_film, r.film_key = b.film_key) ∧
      (∃ r ∈ (sync_bridge_tables src t).dim_actor, r.actor_key = b.actor_key)) ∧
    (∀ b ∈ (sync_bridge_tables src t).bridge_film_category,
      (∃ r ∈ (sync_bridge_tables src t).dim_film, r.film_key = b.film_key) ∧
      (∃ r ∈ (sync_bridge_tables src t).dim_category, r.category_key = b.category_key)) ∧
    (sync_bridge_tables src t).bridge_film_actor.length =
      (src.film_actors.filter (fun l => (dictGet (filmKeyMap t) l.film_id).isSome &&
        (dictGet (actorKeyMap t) l.actor_id).isSome)).length ∧
    (sync_bridge_tables src t).bridge_film_category.length =
      (src.film_categories.filter (fun l => (dictGet (filmKeyMap t) l.film_id).isSome &&
        (dictGet (categoryKeyMap t) l.category_id).isSome)).length := by
  have hfilms : ∀ k v, dictGet (filmKeyMap t) k = some v → 0 < v := by
    intro k v h
    rcases filmKeyMap_mem (dictGet_eq_some h) with ⟨r, hr, _, hk⟩
    exact hk ▸ hpos.1 r hr
  have hactors : ∀ k v, dictGet (actorKeyMap t) k = some v → 0 < v := by
    intro k v h
    rcases actorKeyMap_mem (dictGet_eq_some h) with ⟨r, hr, _, hk⟩
    exact hk ▸ hpos.2.1 r hr
  have hcats : ∀ k v, dictGet (categoryKeyMap t) k = some v → 0 < v := by
    intro k v h
    rcases categoryKeyMap_mem (dictGet_eq_some h) with ⟨r, hr, _, hk⟩
    exact hk ▸ hpos.2.2 r hr
  refine ⟨(bridgeRefsOk_sync_bridge_tables src t).1,
    (bridgeRefsOk_sync_bridge_tables src t).2, ?_, ?_⟩
  · exact buildBridgeFA_length src.film_actors (filmKeyMap t) (actorKeyMap t)
      hfilms hactors
  · exact buildBridgeFC_length src.film_categories (filmKeyMap t) (categoryKeyMap t)
      hfilms hcats

/-- Witness for C5: `c5Source` has two associations of each kind, one per
kind referencing the missing film 2; exactly the resolvable one of each
kind survives. -/
theorem spec_c5_witness :
    surrogatesPositive c5Target ∧
    (sync_bridge_tables c5Source c5Target).bridge_film_actor.length =
      (c5Source.film_actors.filter (fun l =>
        (dictGet (filmKeyMap c5Target) l.film_id).isSome &&
        (dictGet (actorKeyMap c5Target) l.actor_id).isSome)).length :=
  ⟨by decide, (spec_c5_bridge_rebuild c5Source c5Target (by decide)).2.2.1⟩

/-! ## Claim C6 -/

/-- C6 as stated is false: during `full_load`, the clearing phase deletes
the dimension rows and commits while the bridge tables are only replaced
later, so mid-run the old bridge rows reference deleted surrogate keys.
Concretely, `c6Target` satisfies bridge referential integrity, but the
state right after `full_load`'s clearing phase does not. -/
theorem spec_c6_counterexample :
    bridgeRefsOk c6Target ∧ ¬ bridgeRefsOk (fullLoadClear c6Target) := by
  decide

/-- C6 amended: bridge rows reference only currently existing dimension
surrogate keys *after every completed bridge rebuild* — hence at the end
of every full reload and of every incremental load — but not at every
intermediate point of a full reload (between the clearing phase and the
bridge rebuild the invariant can be violated, see the counterexample). -/
theorem spec_c6_bridge_refs_after_runs (src : Source) (t : Target) (now : Nat) :
    bridgeRefsOk (sync_bridge_tables src t) ∧
    bridgeRefsOk (full_load src t now) ∧
    bridgeRefsOk (incremental_load src t now) :=
  ⟨bridgeRefsOk_sync_bridge_tables src t,
   bridgeRefsOk_sync_bridge_tables src _,
   bridgeRefsOk_sync_bridge_tables src _⟩

/-! ## Join-shape lemmas for the fact extractions -/

/-- In a list whose `f`-image has no duplicates, at most one element has
a given `f`-value. -/
theorem filter_feq_length_le_one {α : Type} (f : α → Nat) (l : List α)
    (hn : (l.map f).Nodup) (k : Nat) :
    (l.filter (fun x => f x == k)).length ≤ 1 := by
  induction l with
  | nil => simp
  | cons x xs ih =>
    rw [List.map_cons, List.nodup_cons] at hn
    rw [List.filter_cons]
    by_cases hx : (f x == k) = true
    · rw [if_pos hx]
      have hnil : xs.filter (fun y => f y == k) = [] := by
        rw [List.filter_eq_nil_iff]
        intro y hy hfy
        apply hn.1
        have h1 : f x = k := by simpa using hx
        have h2 : f y = k := by simpa using hfy
        rw [h1, ← h2]
        exact List.mem_map_of_mem f hy
      rw [hnil]
      simp
    · rw [if_neg hx]
      exact ih hn.2

/-- A fact extraction join: each fact row pairs with the (at most one)
reference-table row carrying its lookup key, so the natural keys of the
joined list form a sublist of the fact rows' natural keys. -/
theorem flatMap_join_ids_sublist {α β γ : Type} (rs : List α) (inv : List β)
    (fid : β → Nat) (rid : α → Nat) (key : α → Nat) (g : α → β → γ)
    (pid : γ → Nat) (hinv : (inv.map fid).Nodup)
    (hpid : ∀ r i, pid (g r i) = rid r) :
    ((rs.flatMap (fun r => (inv.filter (fun i => fid i == key r)).map (g r))).map
      pid).Sublist (rs.map rid) := by
  induction rs with
  | nil => simp
  | cons r rs ih =>
    rw [List.flatMap_cons, List.map_append, List.map_cons]
    have hle := filter_feq_length_le_one fid inv hinv (key r)
    cases hflt : inv.filter (fun i => fid i == key r) with
    | nil =>
      simp only [List.map_nil, List.nil_append]
      exact ih.cons _
    | cons i rest =>
      rw [hflt] at hle
      cases rest with
      | nil =>
        simp only [List.map_cons, List.map_nil, List.singleton_append, hpid]
        exact ih.cons₂ _
      | cons i2 rest2 => simp at hle

/-- The rental extraction carries no duplicate rental id when the source
tables' primary keys are unique. -/
theorem rentalChanges_ids_nodup (src : Source) (t : Target)
    (hrent : (src.rentals.map (fun r => r.rental_id)).Nodup)
    (hinv : (src.inventories.map (fun i => i.inventory_id)).Nodup) :
    ((rentalChanges src t).map (fun c => c.1.rental_id)).Nodup := by
  apply List.Nodup.sublist _ hrent
  have h1 := flatMap_join_ids_sublist src.rentals src.inventories
    (fun i => i.inventory_id) (fun r => r.rental_id) (fun r => r.inventory_id)
    (fun r i => (r, i.film_id)) (fun c => c.1.rental_id) hinv (fun r i => rfl)
  refine List.Sublist.trans ?_ h1
  exact List.Sublist.map _ (List.filter_sublist _)

/-- The payment extraction carries no duplicate payment id when the
source tables' primary keys are unique. -/
theorem paymentChanges_ids_nodup (src : Source) (t : Target)
    (hpay : (src.payments.map (fun p => p.payment_id)).Nodup)
    (hstaff : (src.staffs.map (fun s => s.staff_id)).Nodup) :
    ((paymentChanges src t).map (fun c => c.1.payment_id)).Nodup := by
  apply List.Nodup.sublist _ hpay
  have h1 := flatMap_join_ids_sublist src.payments src.staffs
    (fun s => s.staff_id) (fun p => p.payment_id) (fun p => p.staff_id)
    (fun p s => (p, s.store_id)) (fun c => c.1.payment_id) hstaff (fun p s => rfl)
  refine List.Sublist.trans ?_ h1
  exact List.Sublist.map _ (List.filter_sublist _)

/-! ## Claim C4 -/

/-- C4 as stated is false for `sync_fact_rental`: `FactRental` references
`dim_store` through its `store_key` foreign key (src/models.py:114), but
the synchronizer builds no store key map and never assigns `store_key`.
Concretely: against `c4Target`, whose store dimension maps store 1 to
surrogate key 7, the inserted fact row for `wSource`'s rental (handled by
staff 1 of store 1) stores `store_key = NULL`, not a key reflecting the
current dimension state. -/
theorem spec_c4_counterexample :
    ((sync_fact_rental wSource c4Target 9).fact_rental.map (fun f => f.store_key)) =
      [none] ∧
    dictGet (storeKeyMap c4Target) 1 = some 7 := by
  decide

/-- C4 amended: each fact synchronizer rebuilds, after its early-return
check and before its upsert loop, the key maps of the dimensions whose
surrogate keys it actually assigns — film and customer for rentals
(`store_key` is never assigned, see C10), customer and store for payments
— from the target dimension state of this call; every appended fact row
is the insert constructor applied over those maps, and every updated
payment row is the update assignment over those maps (rental updates
assign no foreign keys). -/
theorem spec_c4_fact_keymaps_amended (src : Source) (t : Target) (now : Nat)
    (hrent : (src.rentals.map (fun r => r.rental_id)).Nodup)
    (hinv : (src.inventories.map (fun i => i.inventory_id)).Nodup)
    (hpay : (src.payments.map (fun p => p.payment_id)).Nodup)
    (hstaff : (src.staffs.map (fun s => s.staff_id)).Nodup) :
    (∀ (j : Nat) (r : FactRentalRow), t.fact_rental.length ≤ j →
      ((sync_fact_rental src t now).fact_rental)[j]? = some r →
      ∃ c ∈ rentalChanges src t,
        r = mkFactRentalInsert now (filmKeyMap t) (customerKeyMap t)
          r.fact_rental_key c.1 c.2) ∧
    (∀ (j : Nat) (r : FactPaymentRow), t.fact_payment.length ≤ j →
      ((sync_fact_payment src t now).fact_payment)[j]? = some r →
      ∃ c ∈ paymentChanges src t,
        r = mkFactPaymentInsert now (customerKeyMap t) (storeKeyMap t)
          r.fact_payment_key c.1 c.2) ∧
    (∀ (i : Nat) (x r : FactPaymentRow), (t.fact_payment)[i]? = some x →
      ((sync_fact_payment src t now).fact_payment)[i]? = some r →
      r = x ∨ ∃ c ∈ paymentChanges src t,
        r = updFactPayment now (customerKeyMap t) (storeKeyMap t) c x) := by
  refine ⟨?_, ?_, ?_⟩
  · intro j r hj hr
    by_cases he : (rentalChanges src t).isEmpty = true
    · rw [sync_fact_rental_of_empty src t now (List.isEmpty_iff.mp he)] at hr
      have := (List.getElem?_eq_some_iff.mp hr).1
      omega
    · have hd : (sync_fact_rental src t now).fact_rental =
          (rentalChanges src t).foldl
            (upsertList matchFactRental (updFactRental now)
              (insFactRental now (filmKeyMap t) (customerKeyMap t))) t.fact_rental := by
        simp only [sync_fact_rental]
        rw [if_neg he, update_sync_state_fact_rental,
          foldl_upsertFactRental_fact_rental]
      rw [hd] at hr
      rcases upsertFold_get?_appended matchFactRental (updFactRental now)
        (insFactRental now (filmKeyMap t) (customerKeyMap t))
        (fun f => f.rental_id) (fun c => c.1.rental_id)
        (fun c x => rfl) (fun l c => rfl) _
        (rentalChanges_ids_nodup src t hrent hinv) _ j r hj hr with ⟨c, hc, l', hr2⟩
      refine ⟨c, hc, ?_⟩
      rw [hr2]
      rfl
  · intro j r hj hr
    by_cases he : (paymentChanges src t).isEmpty = true
    · rw [sync_fact_payment_of_empty src t now (List.isEmpty_iff.mp he)] at hr
      have := (List.getElem?_eq_some_iff.mp hr).1
      omega
    · have hd : (sync_fact_payment src t now).fact_payment =
          (paymentChanges src t).foldl
            (upsertList matchFactPayment (updFactPayment now (customerKeyMap t) (storeKeyMap t))
              (insFactPayment now (customerKeyMap t) (storeKeyMap t))) t.fact_payment := by
        simp only [sync_fact_payment]
        rw [if_neg he, update_sync_state_fact_payment,
          foldl_upsertFactPayment_fact_payment]
      rw [hd] at hr
      rcases upsertFold_get?_appended matchFactPayment
        (updFactPayment now (customerKeyMap t) (storeKeyMap t))
        (insFactPayment now (customerKeyMap t) (storeKeyMap t))
        (fun f => f.payment_id) (fun c => c.1.payment_id)
        (fun c x => rfl) (fun l c => rfl) _
        (paymentChanges_ids_nodup src t hpay hstaff) _ j r hj hr with ⟨c, hc, l', hr2⟩
      refine ⟨c, hc, ?_⟩
      rw [hr2]
      rfl
  · intro i x r hx hr
    by_cases he : (paymentChanges src t).isEmpty = true
    · rw [sync_fact_payment_of_empty src t now (List.isEmpty_iff.mp he)] at hr
      rw [hx] at hr
      cases hr
      exact Or.inl rfl
    · have hd : (sync_fact_payment src t now).fact_payment =
          (paymentChanges src t).foldl
            (upsertList matchFactPayment (updFactPayment now (customerKeyMap t) (storeKeyMap t))
              (insFactPayment now (customerKeyMap t) (storeKeyMap t))) t.fact_payment := by
        simp only [sync_fact_payment]
        rw [if_neg he, update_sync_state_fact_payment,
          foldl_upsertFactPayment_fact_payment]
      rw [hd] at hr
      exact upsertFold_get?_front_cases matchFactPayment
        (updFactPayment now (customerKeyMap t) (storeKeyMap t))
        (insFactPayment now (customerKeyMap t) (storeKeyMap t))
        (fun f => f.payment_id) (fun c => c.1.payment_id)
        (fun c x => rfl) (fun c x => rfl) _
        (paymentChanges_ids_nodup src t hpay hstaff) _ i x hx r hr

/-- Witness for the amended C4: against `c4Target` the inserted rental
fact is exactly the insert constructor over the film and customer maps
built from `c4Target`. -/
theorem spec_c4_witness :
    ((wSource.rentals.map (fun r => r.rental_id)).Nodup ∧
     (wSource.inventories.map (fun i => i.inventory_id)).Nodup ∧
     (wSource.payments.map (fun p => p.payment_id)).Nodup ∧
     (wSource.staffs.map (fun s => s.staff_id)).Nodup) ∧
    (∃ c ∈ rentalChanges wSource c4Target,
      c4InsRow = mkFactRentalInsert 9 (filmKeyMap c4Target) (customerKeyMap c4Target)
        c4InsRow.fact_rental_key c.1 c.2) :=
  ⟨⟨by decide, by decide, by decide, by decide⟩,
   (spec_c4_fact_keymaps_amended wSource c4Target 9 (by decide) (by decide)
     (by decide) (by decide)).1 0 c4InsRow (by decide) (by decide)⟩

/-! ## Second-run extractions after an incremental load -/

theorem filmChanges_after_incremental (src : Source) (t : Target) (now1 : Nat)
    (hq : ∀ f ∈ src.films, f.last_update ≤ now1) :
    filmChanges src (incremental_load src t now1) = [] := by
  have hwm : syncStateLookup (incremental_load src t now1) "dim_film" =
      syncStateLookup (sync_dim_film src t now1) "dim_film" := by
    unfold incremental_load
    rw [syncStateLookup_sync_bridge]
    rw [syncStateLookup_sync_fact_payment _ _ _ _ (by decide)]
    rw [syncStateLookup_sync_fact_rental _ _ _ _ (by decide)]
    rw [syncStateLookup_sync_dim_category _ _ _ _ (by decide)]
    rw [syncStateLookup_sync_dim_actor _ _ _ _ (by decide)]
    rw [syncStateLookup_sync_dim_store _ _ _ _ (by decide)]
    rw [syncStateLookup_sync_dim_customer _ _ _ _ (by decide)]
  by_cases he : (filmChanges src t).isEmpty = true
  · have hid : sync_dim_film src t now1 = t :=
      sync_dim_film_of_empty src t now1 (List.isEmpty_iff.mp he)
    have hw2 : watermark (incremental_load src t now1) "dim_film" =
        watermark t "dim_film" := by
      unfold watermark
      rw [hwm, hid]
    rw [filmChanges_congr src hw2]
    exact List.isEmpty_iff.mp he
  · have hself := syncStateLookup_sync_dim_film_self src t now1
      (fun hnil => he (by rw [hnil]; rfl))
    have hw2 : watermark (incremental_load src t now1) "dim_film" = now1 := by
      unfold watermark
      rw [hwm, hself]
      rfl
    exact filmChanges_of_le_watermark src _ now1 hq (Nat.le_of_eq hw2.symm)

theorem customerChanges_after_incremental (src : Source) (t : Target) (now1 : Nat)
    (hq : ∀ c ∈ src.customers, c.last_update ≤ now1) :
    customerChanges src (incremental_load src t now1) = [] := by
  have hwm : syncStateLookup (incremental_load src t now1) "dim_customer" =
      syncStateLookup (sync_dim_customer src (sync_dim_film src t now1) now1) "dim_customer" := by
    unfold incremental_load
    rw [syncStateLookup_sync_bridge]
    rw [syncStateLookup_sync_fact_payment _ _ _ _ (by decide)]
    rw [syncStateLookup_sync_fact_rental _ _ _ _ (by decide)]
    rw [syncStateLookup_sync_dim_category _ _ _ _ (by decide)]
    rw [syncStateLookup_sync_dim_actor _ _ _ _ (by decide)]
    rw [syncStateLookup_sync_dim_store _ _ _ _ (by decide)]
  by_cases he : (customerChanges src (sync_dim_film src t now1)).isEmpty = true
  · have hid : sync_dim_customer src (sync_dim_film src t now1) now1 = (sync_dim_film src t now1) :=
      sync_dim_customer_of_empty src (sync_dim_film src t now1) now1 (List.isEmpty_iff.mp he)
    have hw2 : watermark (incremental_load src t now1) "dim_customer" =
        watermark (sync_dim_film src t now1) "dim_customer" := by
      unfold watermark
      rw [hwm, hid]
    rw [customerChanges_congr src hw2]
    exact List.isEmpty_iff.mp he
  · have hself := syncStateLookup_sync_dim_customer_self src (sync_dim_film src t now1) now1
      (fun hnil => he (by rw [hnil]; rfl))
    have hw2 : watermark (incremental_load src t now1) "dim_customer" = now1 := by
      unfold watermark
      rw [hwm, hself]
      rfl
    exact customerChanges_of_le_watermark src _ now1 hq (Nat.le_of_eq hw2.symm)

theorem storeChanges_after_incremental (src : Source) (t : Target) (now1 : Nat)
    (hq : ∀ s ∈ src.stores, s.last_update ≤ now1) :
    storeChanges src (incremental_load src t now1) = [] := by
  have hwm : syncStateLookup (incremental_load src t now1) "dim_store" =
      syncStateLookup (sync_dim_store src (sync_dim_customer src (sync_dim_film src t now1) now1) now1) "dim_store" := by
    unfold incremental_load
    rw [syncStateLookup_sync_bridge]
    rw [syncStateLookup_sync_fact_payment _ _ _ _ (by decide)]
    rw [syncStateLookup_sync_fact_rental _ _ _ _ (by decide)]
    rw [syncStateLookup_sync_dim_category _ _ _ _ (by decide)]
    rw [syncStateLookup_sync_dim_actor _ _ _ _ (by decide)]
  by_cases he : (storeChanges src (sync_dim_customer src (sync_dim_film src t now1) now1)).isEmpty = true
  · have hid : sync_dim_store src (sync_dim_customer src (sync_dim_film src t now1) now1) now1 = (sync_dim_customer src (sync_dim_film src t now1) now1) :=
      sync_dim_store_of_empty src (sync_dim_customer src (sync_dim_film src t now1) now1) now1 (List.isEmpty_iff.mp he)
    have hw2 : watermark (incremental_load src t now1) "dim_store" =
        watermark (sync_dim_customer src (sync_dim_film src t now1) now1) "dim_store" := by
      unfold watermark
      rw [hwm, hid]
    rw [storeChanges_congr src hw2]
    exact List.isEmpty_iff.mp he
  · have hself := syncStateLookup_sync_dim_store_self src (sync_dim_customer src (sync_dim_film src t now1) now1) now1
      (fun hnil => he (by rw [hnil]; rfl))
    have hw2 : watermark (incremental_load src t now1) "dim_store" = now1 := by
      unfold watermark
      rw [hwm, hself]
      rfl
    exact storeChanges_of_le_watermark src _ now1 hq (Nat.le_of_eq hw2.symm)

theorem actorChanges_after_incremental (src : Source) (t : Target) (now1 : Nat)
    (hq : ∀ a ∈ src.actors, a.last_update ≤ now1) :
    actorChanges src (incremental_load src t now1) = [] := by
  have hwm : syncStateLookup (incremental_load src t now1) "dim_actor" =
      syncStateLookup (sync_dim_actor src (sync_dim_store src (sync_dim_customer src (sync_dim_film src t now1) now1) now1) now1) "dim_actor" := by
    unfold incremental_load
    rw [syncStateLookup_sync_bridge]
    rw [syncStateLookup_sync_fact_payment _ _ _ _ (by decide)]
    rw [syncStateLookup_sync_fact_rental _ _ _ _ (by decide)]
    rw [syncStateLookup_sync_dim_category _ _ _ _ (by decide)]
  by_cases he : (actorChanges src (sync_dim_store src (sync_dim_customer src (sync_dim_film src t now1) now1) now1)).isEmpty = true
  · have hid : sync_dim_actor src (sync_dim_store src (sync_dim_customer src (sync_dim_film src t now1) now1) now1) now1 = (sync_dim_store src (sync_dim_customer src (sync_dim_film src t now1) now1) now1) :=
      sync_dim_actor_of_empty src (sync_dim_store src (sync_dim_customer src (sync_dim_film src t now1) now1) now1) now1 (List.isEmpty_iff.mp he)
    have hw2 : watermark (incremental_load src t now1) "dim_actor" =
        watermark (sync_dim_store src (sync_dim_customer src (sync_dim_film src t now1) now1) now1) "dim_actor" := by
      unfold watermark
      rw [hwm, hid]
    rw [actorChanges_congr src hw2]
    exact List.isEmpty_iff.mp he
  · have hself := syncStateLookup_sync_dim_actor_self src (sync_dim_store src (sync_dim_customer src (sync_dim_film src t now1) now1) now1) now1
      (fun hnil => he (by rw [hnil]; rfl))
    have hw2 : watermark (incremental_load src t now1) "dim_actor" = now1 := by
      unfold watermark
      rw [hwm, hself]
      rfl
    exact actorChanges_of_le_watermark src _ now1 hq (Nat.le_of_eq hw2.symm)

theorem categoryChanges_after_incremental (src : Source) (t : Target) (now1 : Nat)
    (hq : ∀ c ∈ src.categories, c.last_update ≤ now1) :
    categoryChanges src (incremental_load src t now1) = [] := by
  have hwm : syncStateLookup (incremental_load src t now1) "dim_category" =
      syncStateLookup (sync_dim_category src (sync_dim_actor src (sync_dim_store src (sync_dim_customer src (sync_dim_film src t now1) now1) now1) now1) now1) "dim_category" := by
    unfold incremental_load
    rw [syncStateLookup_sync_bridge]
    rw [syncStateLookup_sync_fact_payment _ _ _ _ (by decide)]
    rw [syncStateLookup_sync_fact_rental _ _ _ _ (by decide)]
  by_cases he : (categoryChanges src (sync_dim_actor src (sync_dim_store src (sync_dim_customer src (sync_dim_film src t now1) now1) now1) now1)).isEmpty = true
  · have hid : sync_dim_category src (sync_dim_actor src (sync_dim_store src (sync_dim_customer src (sync_dim_film src t now1) now1) now1) now1) now1 = (sync_dim_actor src (sync_dim_store src (sync_dim_customer src (sync_dim_film src t now1) now1) now1) now1) :=
      sync_dim_category_of_empty src (sync_dim_actor src (sync_dim_store src (sync_dim_customer src (sync_dim_film src t now1) now1) now1) now1) now1 (List.isEmpty_iff.mp he)
    have hw2 : watermark (incremental_load src t now1) "dim_category" =
        watermark (sync_dim_actor src (sync_dim_store src (sync_dim_customer src (sync_dim_film src t now1) now1) now1) now1) "dim_category" := by
      unfold watermark
      rw [hwm, hid]
    rw [categoryChanges_congr src hw2]
    exact List.isEmpty_iff.mp he
  · have hself := syncStateLookup_sync_dim_category_self src (sync_dim_actor src (sync_dim_store src (sync_dim_customer src (sync_dim_film src t now1) now1) now1) now1) now1
      (fun hnil => he (by rw [hnil]; rfl))
    have hw2 : watermark (incremental_load src t now1) "dim_category" = now1 := by
      unfold watermark
      rw [hwm, hself]
      rfl
    exact categoryChanges_of_le_watermark src _ now1 hq (Nat.le_of_eq hw2.symm)

theorem rentalChanges_after_incremental (src : Source) (t : Target) (now1 : Nat)
    (hq : ∀ r ∈ src.rentals, r.last_update ≤ now1) :
    rentalChanges src (incremental_load src t now1) = [] := by
  have hwm : syncStateLookup (incremental_load src t now1) "fact_rental" =
      syncStateLookup (sync_fact_rental src (sync_dim_category src (sync_dim_actor src (sync_dim_store src (sync_dim_customer src (sync_dim_film src t now1) now1) now1) now1) now1) now1) "fact_rental" := by
    unfold incremental_load
    rw [syncStateLookup_sync_bridge]
    rw [syncStateLookup_sync_fact_payment _ _ _ _ (by decide)]
  by_cases he : (rentalChanges src (sync_dim_category src (sync_dim_actor src (sync_dim_store src (sync_dim_customer src (sync_dim_film src t now1) now1) now1) now1) now1)).isEmpty = true
  · have hid : sync_fact_rental src (sync_dim_category src (sync_dim_actor src (sync_dim_store src (sync_dim_customer src (sync_dim_film src t now1) now1) now1) now1) now1) now1 = (sync_dim_category src (sync_dim_actor src (sync_dim_store src (sync_dim_customer src (sync_dim_film src t now1) now1) now1) now1) now1) :=
      sync_fact_rental_of_empty src (sync_dim_category src (sync_dim_actor src (sync_dim_store src (sync_dim_customer src (sync_dim_film src t now1) now1) now1) now1) now1) now1 (List.isEmpty_iff.mp he)
    have hw2 : watermark (incremental_load src t now1) "fact_rental" =
        watermark (sync_dim_category src (sync_dim_actor src (sync_dim_store src (sync_dim_customer src (sync_dim_film src t now1) now1) now1) now1) now1) "fact_rental" := by
      unfold watermark
      rw [hwm, hid]
    rw [rentalChanges_congr src hw2]
    exact List.isEmpty_iff.mp he
  · have hself := syncStateLookup_sync_fact_rental_self src (sync_dim_category src (sync_dim_actor src (sync_dim_store src (sync_dim_customer src (sync_dim_film src t now1) now1) now1) now1) now1) now1
      (fun hnil => he (by rw [hnil]; rfl))
    have hw2 : watermark (incremental_load src t now1) "fact_rental" = now1 := by
      unfold watermark
      rw [hwm, hself]
      rfl
    exact rentalChanges_of_le_watermark src _ now1 hq (Nat.le_of_eq hw2.symm)

theorem paymentChanges_after_incremental (src : Source) (t : Target) (now1 : Nat)
    (hq : ∀ p ∈ src.payments, p.last_update ≤ now1) :
    paymentChanges src (incremental_load src t now1) = [] := by
  have hwm : syncStateLookup (incremental_load src t now1) "fact_payment" =
      syncStateLookup (sync_fact_payment src (sync_fact_rental src (sync_dim_category src (sync_dim_actor src (sync_dim_store src (sync_dim_customer src (sync_dim_film src t now1) now1) now1) now1) now1) now1) now1) "fact_payment" := by
    unfold incremental_load
    rw [syncStateLookup_sync_bridge]
  by_cases he : (paymentChanges src (sync_fact_rental src (sync_dim_category src (sync_dim_actor src (sync_dim_store src (sync_dim_customer src (sync_dim_film src t now1) now1) now1) now1) now1) now1)).isEmpty = true
  · have hid : sync_fact_payment src (sync_fact_rental src (sync_dim_category src (sync_dim_actor src (sync_dim_store src (sync_dim_customer src (sync_dim_film src t now1) now1) now1) now1) now1) now1) now1 = (sync_fact_rental src (sync_dim_category src (sync_dim_actor src (sync_dim_store src (sync_dim_customer src (sync_dim_film src t now1) now1) now1) now1) now1) now1) :=
      sync_fact_payment_of_empty src (sync_fact_rental src (sync_dim_category src (sync_dim_actor src (sync_dim_store src (sync_dim_customer src (sync_dim_film src t now1) now1) now1) now1) now1) now1) now1 (List.isEmpty_iff.mp he)
    have hw2 : watermark (incremental_load src t now1) "fact_payment" =
        watermark (sync_fact_rental src (sync_dim_category src (sync_dim_actor src (sync_dim_store src (sync_dim_customer src (sync_dim_film src t now1) now1) now1) now1) now1) now1) "fact_payment" := by
      unfold watermark
      rw [hwm, hid]
    rw [paymentChanges_congr src hw2]
    exact List.isEmpty_iff.mp he
  · have hself := syncStateLookup_sync_fact_payment_self src (sync_fact_rental src (sync_dim_category src (sync_dim_actor src (sync_dim_store src (sync_dim_customer src (sync_dim_film src t now1) now1) now1) now1) now1) now1) now1
      (fun hnil => he (by rw [hnil]; rfl))
    have hw2 : watermark (incremental_load src t now1) "fact_payment" = now1 := by
      unfold watermark
      rw [hwm, hself]
      rfl
    exact paymentChanges_of_le_watermark src _ now1 hq (Nat.le_of_eq hw2.symm)

/-! ## Calendar lemmas (dates, the generation loop) -/

theorem daysInMonth_pos (y m : Nat) : 1 ≤ daysInMonth y m := by
  unfold daysInMonth
  split_ifs <;> omega

theorem daysInMonth_le (y m : Nat) : daysInMonth y m ≤ 31 := by
  unfold daysInMonth
  split_ifs <;> omega

theorem daysInMonth_december (y : Nat) : daysInMonth y 12 = 31 := rfl

theorem Date.key_lt_nextDay {d : Date} (hd : d.valid) : d.key < d.nextDay.key := by
  obtain ⟨h1, h2, h3, h4, h5⟩ := hd
  have h6 := daysInMonth_le d.year d.month
  unfold Date.nextDay
  split_ifs with c1 c2 <;> simp only [Date.key] <;> omega

theorem Date.valid_nextDay {d : Date} (hd : d.valid) : d.nextDay.valid := by
  obtain ⟨h1, h2, h3, h4, h5⟩ := hd
  unfold Date.nextDay
  split_ifs with c1 c2
  · show 1 ≤ d.year ∧ 1 ≤ d.month ∧ d.month ≤ 12 ∧ 1 ≤ d.day + 1 ∧
      d.day + 1 ≤ daysInMonth d.year d.month
    omega
  · show 1 ≤ d.year ∧ 1 ≤ d.month + 1 ∧ d.month + 1 ≤ 12 ∧ 1 ≤ 1 ∧
      1 ≤ daysInMonth d.year (d.month + 1)
    have := daysInMonth_pos d.year (d.month + 1)
    omega
  · show 1 ≤ d.year + 1 ∧ 1 ≤ 1 ∧ 1 ≤ 12 ∧ 1 ≤ 1 ∧
      1 ≤ daysInMonth (d.year + 1) 1
    have := daysInMonth_pos (d.year + 1) 1
    omega

theorem Date.leb_iff_key {a b : Date} (ha : a.valid) (hb : b.valid) :
    a.leb b = true ↔ a.key ≤ b.key := by
  obtain ⟨a1, a2, a3, a4, a5⟩ := ha
  obtain ⟨b1, b2, b3, b4, b5⟩ := hb
  have a6 := daysInMonth_le a.year a.month
  have b6 := daysInMonth_le b.year b.month
  simp only [Date.leb, Date.key, Bool.or_eq_true, Bool.and_eq_true,
    beq_iff_eq, decide_eq_true_eq]
  omega

theorem Date.key_inj {a b : Date} (ha : a.valid) (hb : b.valid)
    (h : a.key = b.key) : a = b := by
  obtain ⟨a1, a2, a3, a4, a5⟩ := ha
  obtain ⟨b1, b2, b3, b4, b5⟩ := hb
  have a6 := daysInMonth_le a.year a.month
  have b6 := daysInMonth_le b.year b.month
  cases a
  cases b
  simp only [Date.key] at h a1 a2 a3 a4 a5 a6 b1 b2 b3 b4 b5 b6 ⊢
  simp only [Date.mk.injEq]
  omega

/-- The immediate-successor property: no valid date lies strictly
between a valid date and its `nextDay`. -/
theorem Date.nextDay_key_le {d e : Date} (hd : d.valid) (he : e.valid)
    (hlt : d.key < e.key) : d.nextDay.key ≤ e.key := by
  obtain ⟨d1, d2, d3, d4, d5⟩ := hd
  obtain ⟨e1, e2, e3, e4, e5⟩ := he
  have d6 := daysInMonth_le d.year d.month
  have e6 := daysInMonth_le e.year e.month
  unfold Date.nextDay
  split_ifs with c1 c2
  · simp only [Date.key] at hlt ⊢
    omega
  · simp only [Date.key] at hlt ⊢
    by_cases hy : e.year = d.year
    · by_cases hm : e.month = d.month
      · have hdim : daysInMonth e.year e.month = daysInMonth d.year d.month := by
          rw [hy, hm]
        omega
      · omega
    · omega
  · have hm12 : d.month = 12 := by omega
    have hdim : daysInMonth d.year d.month = 31 := by
      rw [hm12]
      exact daysInMonth_december d.year
    simp only [Date.key] at hlt ⊢
    by_cases hy : e.year = d.year
    · by_cases hm : e.month = d.month
      · have hdim2 : daysInMonth e.year e.month = daysInMonth d.year d.month := by
          rw [hy, hm]
        omega
      · omega
    · omega

theorem Date.dayOfWeek_lt (d : Date) : d.dayOfWeek < 7 :=
  Nat.mod_lt _ (by omega)

/- Properties of the visited-dates sequence. -/

theorem genDates_valid (endD : Date) :
    ∀ (fuel : Nat) (cur : Date), cur.valid →
      ∀ e ∈ genDates endD fuel cur, e.valid := by
  intro fuel
  induction fuel with
  | zero => intro cur _ e he; cases he
  | succ n ih =>
    intro cur hcur e he
    unfold genDates at he
    by_cases hleb : cur.leb endD = true
    · rw [if_pos hleb] at he
      rcases List.mem_cons.mp he with rfl | he2
      · exact hcur
      · exact ih cur.nextDay (Date.valid_nextDay hcur) e he2
    · rw [if_neg hleb] at he
      cases he

theorem genDates_lb (endD : Date) :
    ∀ (fuel : Nat) (cur : Date), cur.valid →
      ∀ e ∈ genDates endD fuel cur, cur.key ≤ e.key := by
  intro fuel
  induction fuel with
  | zero => intro cur _ e he; cases he
  | succ n ih =>
    intro cur hcur e he
    unfold genDates at he
    by_cases hleb : cur.leb endD = true
    · rw [if_pos hleb] at he
      rcases List.mem_cons.mp he with rfl | he2
      · exact Nat.le_refl _
      · have := ih cur.nextDay (Date.valid_nextDay hcur) e he2
        have h2 := Date.key_lt_nextDay hcur
        omega
    · rw [if_neg hleb] at he
      cases he

theorem genDates_sorted (endD : Date) :
    ∀ (fuel : Nat) (cur : Date), cur.valid →
      (genDates endD fuel cur).Pairwise (fun a b => a.key < b.key) := by
  intro fuel
  induction fuel with
  | zero => intro cur _; exact List.Pairwise.nil
  | succ n ih =>
    intro cur hcur
    unfold genDates
    by_cases hleb : cur.leb endD = true
    · rw [if_pos hleb]
      refine List.Pairwise.cons ?_ (ih cur.nextDay (Date.valid_nextDay hcur))
      intro e he
      have h1 := genDates_lb endD n cur.nextDay (Date.valid_nextDay hcur) e he
      have h2 := Date.key_lt_nextDay hcur
      omega
    · rw [if_neg hleb]
      exact List.Pairwise.nil

/-- With enough fuel, the loop visits exactly the valid dates between the
current date and the end date. -/
theorem genDates_mem (endD : Date) (hend : endD.valid) :
    ∀ (fuel : Nat) (cur : Date), cur.valid → endD.key < cur.key + fuel →
      ∀ e : Date, e ∈ genDates endD fuel cur ↔
        (e.valid ∧ cur.key ≤ e.key ∧ e.key ≤ endD.key) := by
  intro fuel
  induction fuel with
  | zero =>
    intro cur hcur hfuel e
    constructor
    · intro he; cases he
    · intro ⟨_, h1, h2⟩; omega
  | succ n ih =>
    intro cur hcur hfuel e
    unfold genDates
    by_cases hleb : cur.leb endD = true
    · rw [if_pos hleb]
      have hck : cur.key ≤ endD.key := (Date.leb_iff_key hcur hend).mp hleb
      have hnext := Date.valid_nextDay hcur
      have hstep := Date.key_lt_nextDay hcur
      rw [List.mem_cons, ih cur.nextDay hnext (by omega) e]
      constructor
      · rintro (rfl | ⟨hv, hl, hu⟩)
        · exact ⟨hcur, Nat.le_refl _, hck⟩
        · exact ⟨hv, by omega, hu⟩
      · rintro ⟨hv, hl, hu⟩
        rcases Nat.eq_or_lt_of_le hl with heq | hlt
        · left
          exact (Date.key_inj hcur hv heq).symm
        · right
          exact ⟨hv, Date.nextDay_key_le hcur hv hlt, hu⟩
    · rw [if_neg hleb]
      have : ¬ cur.key ≤ endD.key := fun hc =>
        hleb ((Date.leb_iff_key hcur hend).mpr hc)
      constructor
      · intro he; cases he
      · intro ⟨_, h1, h2⟩; omega

theorem contains_iff_mem_nat (l : List Nat) (a : Nat) : l.contains a = true ↔ a ∈ l := by
  simp

/-- What one whole run of the generation loop appends: one `DimDateRow`
per visited date whose key is not in the pre-loaded key set, in visiting
order — the batching commits only move rows between `batch` and `rows`. -/
theorem dimDateLoop_spec (endD : Date) (ex : List Nat) :
    ∀ (fuel : Nat) (cur : Date) (rows batch : List DimDateRow),
      (dimDateLoop endD ex fuel cur rows batch).1 ++
        (dimDateLoop endD ex fuel cur rows batch).2 =
      rows ++ batch ++ (genDates endD fuel cur).filterMap
        (fun d => if ex.contains d.key then none else some (mkDimDateRow d)) := by
  intro fuel
  induction fuel with
  | zero =>
    intro cur rows batch
    simp [dimDateLoop, genDates]
  | succ n ih =>
    intro cur rows batch
    simp only [dimDateLoop, genDates]
    by_cases hleb : cur.leb endD = true
    · rw [if_pos hleb, if_pos hleb, List.filterMap_cons]
      by_cases hex : ex.contains cur.key = true
      · rw [if_pos hex, if_pos hex]
        by_cases hflush : 1000 ≤ batch.length
        · rw [if_pos hflush, ih]
          simp [List.append_assoc]
        · rw [if_neg hflush, ih]
      · rw [if_neg hex, if_neg hex]
        by_cases hflush : 1000 ≤ (batch ++ [mkDimDateRow cur]).length
        · rw [if_pos hflush, ih]
          simp [List.append_assoc]
        · rw [if_neg hflush, ih]
          simp [List.append_assoc]
    · rw [if_neg hleb, if_neg hleb]
      simp

/-- Kept generated rows never match a key that was already present. -/
theorem filterMap_new_filter_of_contains (ex : List Nat) (D : Date)
    (ds : List Date) (hc : ex.contains D.key = true) :
    ((ds.filterMap (fun d => if ex.contains d.key then none
        else some (mkDimDateRow d))).filter
      (fun r => r.date_key == D.key)) = [] := by
  induction ds with
  | nil => rfl
  | cons d ds ih =>
    rw [List.filterMap_cons]
    by_cases hd : ex.contains d.key = true
    · rw [if_pos hd]
      exact ih
    · rw [if_neg hd, List.filter_cons]
      have hne : ((mkDimDateRow d).date_key == D.key) = false := by
        show (d.key == D.key) = false
        simp only [beq_eq_false_iff_ne, ne_eq]
        intro he
        apply hd
        rw [he]
        exact hc
      simp only [hne, Bool.false_eq_true, if_false]
      exact ih

/-- No kept generated row matches the key of a date outside the list. -/
theorem filterMap_new_filter_of_ne (ex : List Nat) (D : Date)
    (ds : List Date) (hne : ∀ d ∈ ds, d.key ≠ D.key) :
    ((ds.filterMap (fun d => if ex.contains d.key then none
        else some (mkDimDateRow d))).filter
      (fun r => r.date_key == D.key)) = [] := by
  induction ds with
  | nil => rfl
  | cons d ds ih =>
    rw [List.filterMap_cons]
    have hd := hne d (List.mem_cons_self _ _)
    have ihne : ∀ d' ∈ ds, d'.key ≠ D.key :=
      fun d' hd' => hne d' (List.mem_cons_of_mem _ hd')
    by_cases hc : ex.contains d.key = true
    · rw [if_pos hc]
      exact ih ihne
    · rw [if_neg hc, List.filter_cons]
      have hb : ((mkDimDateRow d).date_key == D.key) = false := by
        show (d.key == D.key) = false
        simpa using hd
      simp only [hb, Bool.false_eq_true, if_false]
      exact ih ihne

/-- A date visited once (the visited keys are strictly increasing) whose
key was not pre-loaded contributes exactly its one row. -/
theorem filterMap_new_filter_unique (ex : List Nat) (D : Date) :
    ∀ ds : List Date, ds.Pairwise (fun a b => a.key < b.key) → D ∈ ds →
      ex.contains D.key = false →
      ((ds.filterMap (fun d => if ex.contains d.key then none
          else some (mkDimDateRow d))).filter
        (fun r => r.date_key == D.key)) = [mkDimDateRow D] := by
  intro ds
  induction ds with
  | nil => intro _ hmem; cases hmem
  | cons d ds ih =>
    intro hsorted hmem hnc
    rw [List.pairwise_cons] at hsorted
    rw [List.filterMap_cons]
    rcases List.mem_cons.mp hmem with rfl | hmem2
    · rw [if_neg (by rw [hnc]; exact Bool.false_ne_true)]
      rw [List.filter_cons]
      have hb : ((mkDimDateRow D).date_key == D.key) = true := by
        show (D.key == D.key) = true
        simp
      simp only [hb, if_true]
      rw [filterMap_new_filter_of_ne ex D ds
        (fun d' hd' => Nat.ne_of_gt (hsorted.1 d' hd'))]
    · have hdD : d.key < D.key := hsorted.1 D hmem2
      by_cases hc : ex.contains d.key = true
      · rw [if_pos hc]
        exact ih hsorted.2 hmem2 hnc
      · rw [if_neg hc, List.filter_cons]
        have hb : ((mkDimDateRow d).date_key == D.key) = false := by
          show (d.key == D.key) = false
          simp only [beq_eq_false_iff_ne, ne_eq]
          omega
        simp only [hb, Bool.false_eq_true, if_false]
        exact ih hsorted.2 hmem2 hnc

/-! ## Claim C8 -/

/-- C8: over a generated range `[start_year, end_year]` (within
`datetime`'s years, `start_year ≥ 1`), `load_dim_date` creates exactly
one `DimDate` row for every valid calendar day in the range whose key is
not already present — with `date_key` the integer `YYYYMMDD` encoding,
the year, quarter `(month-1)/3 + 1`, month, day-of-month, Python
`weekday()` (Monday = 0), and weekend flag as built by `mkDimDateRow` —
and no row for a day whose key already exists; the weekend flag is true
exactly for day-of-week 5 or 6 (Saturday, Sunday); and re-running the
generator over the same range inserts nothing. -/
theorem spec_c8_calendar_generation (t : Target) (sy ey : Nat)
    (h1 : 1 ≤ sy) (h2 : sy ≤ ey) :
    (∀ d : Date, d.valid →
      Date.leb ⟨sy, 1, 1⟩ d = true → Date.leb d ⟨ey, 12, 31⟩ = true →
      (((t.dim_date.map (fun r => r.date_key)).contains d.key = false →
        (load_dim_date t sy ey).dim_date.filter (fun r => r.date_key == d.key) =
          [mkDimDateRow d]) ∧
       ((t.dim_date.map (fun r => r.date_key)).contains d.key = true →
        (load_dim_date t sy ey).dim_date.filter (fun r => r.date_key == d.key) =
          t.dim_date.filter (fun r => r.date_key == d.key)))) ∧
    (∀ d : Date, (mkDimDateRow d).is_weekend = true ↔
      (d.dayOfWeek = 5 ∨ d.dayOfWeek = 6)) ∧
    load_dim_date (load_dim_date t sy ey) sy ey = load_dim_date t sy ey := by
  have hstart : (⟨sy, 1, 1⟩ : Date).valid := by
    show 1 ≤ sy ∧ 1 ≤ 1 ∧ 1 ≤ 12 ∧ 1 ≤ 1 ∧ 1 ≤ daysInMonth sy 1
    exact ⟨h1, by omega, by omega, by omega, daysInMonth_pos sy 1⟩
  have hend : (⟨ey, 12, 31⟩ : Date).valid := by
    show 1 ≤ ey ∧ 1 ≤ 12 ∧ 12 ≤ 12 ∧ 1 ≤ 31 ∧ 31 ≤ daysInMonth ey 12
    exact ⟨by omega, by omega, by omega, by omega,
      Nat.le_of_eq (daysInMonth_december ey).symm⟩
  have hfuel : (⟨ey, 12, 31⟩ : Date).key <
      (⟨sy, 1, 1⟩ : Date).key +
        ((⟨ey, 12, 31⟩ : Date).key + 2 - (⟨sy, 1, 1⟩ : Date).key) := by
    simp only [Date.key]
    omega
  have hload : (load_dim_date t sy ey).dim_date =
      t.dim_date ++
        (genDates ⟨ey, 12, 31⟩
          ((⟨ey, 12, 31⟩ : Date).key + 2 - (⟨sy, 1, 1⟩ : Date).key)
          ⟨sy, 1, 1⟩).filterMap
          (fun d => if (t.dim_date.map (fun r => r.date_key)).contains d.key
            then none else some (mkDimDateRow d)) := by
    simp only [load_dim_date]
    rw [dimDateLoop_spec]
    simp
  refine ⟨?_, ?_, ?_⟩
  · intro d hd hleb1 hleb2
    have hdlow : (⟨sy, 1, 1⟩ : Date).key ≤ d.key :=
      (Date.leb_iff_key hstart hd).mp hleb1
    have hdhigh : d.key ≤ (⟨ey, 12, 31⟩ : Date).key :=
      (Date.leb_iff_key hd hend).mp hleb2
    have hmem : d ∈ genDates ⟨ey, 12, 31⟩
        ((⟨ey, 12, 31⟩ : Date).key + 2 - (⟨sy, 1, 1⟩ : Date).key) ⟨sy, 1, 1⟩ :=
      (genDates_mem ⟨ey, 12, 31⟩ hend _ ⟨sy, 1, 1⟩ hstart hfuel d).mpr
        ⟨hd, hdlow, hdhigh⟩
    constructor
    · intro hnc
      rw [hload, List.filter_append]
      rw [filterMap_new_filter_unique _ _ _
        (genDates_sorted _ _ _ hstart) hmem hnc]
      have hold : t.dim_date.filter (fun r => r.date_key == d.key) = [] := by
        rw [List.filter_eq_nil_iff]
        intro r hr hpred
        have hkey : r.date_key = d.key := by simpa using hpred
        have : d.key ∈ t.dim_date.map (fun r => r.date_key) :=
          hkey ▸ List.mem_map_of_mem _ hr
        rw [(contains_iff_mem_nat _ _).mpr this] at hnc
        cases hnc
      rw [hold]
      rfl
    · intro hc
      rw [hload, List.filter_append,
        filterMap_new_filter_of_contains _ _ _ hc, List.append_nil]
  · intro d
    have hlt := Date.dayOfWeek_lt d
    simp only [mkDimDateRow, decide_eq_true_eq]
    omega
  · have hkeys : ∀ d ∈ genDates ⟨ey, 12, 31⟩
        ((⟨ey, 12, 31⟩ : Date).key + 2 - (⟨sy, 1, 1⟩ : Date).key) ⟨sy, 1, 1⟩,
        ((load_dim_date t sy ey).dim_date.map (fun r => r.date_key)).contains
          d.key = true := by
      intro d hd
      rw [contains_iff_mem_nat, hload, List.map_append, List.mem_append]
      by_cases hex : (t.dim_date.map (fun r => r.date_key)).contains d.key = true
      · left
        exact (contains_iff_mem_nat _ _).mp hex
      · right
        have hfn : (if (t.dim_date.map (fun r => r.date_key)).contains d.key
            then none else some (mkDimDateRow d)) = some (mkDimDateRow d) := by
          rw [if_neg hex]
        have hrow : mkDimDateRow d ∈ (genDates ⟨ey, 12, 31⟩
            ((⟨ey, 12, 31⟩ : Date).key + 2 - (⟨sy, 1, 1⟩ : Date).key)
            ⟨sy, 1, 1⟩).filterMap
            (fun d => if (t.dim_date.map (fun r => r.date_key)).contains d.key
              then none else some (mkDimDateRow d)) :=
          List.mem_filterMap.mpr ⟨d, hd, hfn⟩
        exact List.mem_map_of_mem _ hrow
    have hL2 : load_dim_date (load_dim_date t sy ey) sy ey =
        { load_dim_date t sy ey with dim_date :=
            (dimDateLoop ⟨ey, 12, 31⟩
              ((load_dim_date t sy ey).dim_date.map (fun r => r.date_key))
              ((⟨ey, 12, 31⟩ : Date).key + 2 - (⟨sy, 1, 1⟩ : Date).key)
              ⟨sy, 1, 1⟩ (load_dim_date t sy ey).dim_date []).1 ++
            (dimDateLoop ⟨ey, 12, 31⟩
              ((load_dim_date t sy ey).dim_date.map (fun r => r.date_key))
              ((⟨ey, 12, 31⟩ : Date).key + 2 - (⟨sy, 1, 1⟩ : Date).key)
              ⟨sy, 1, 1⟩ (load_dim_date t sy ey).dim_date []).2 } := rfl
    rw [hL2, dimDateLoop_spec]
    have hnil : (genDates ⟨ey, 12, 31⟩
        ((⟨ey, 12, 31⟩ : Date).key + 2 - (⟨sy, 1, 1⟩ : Date).key)
        ⟨sy, 1, 1⟩).filterMap
        (fun d => if ((load_dim_date t sy ey).dim_date.map
            (fun r => r.date_key)).contains d.key
          then none else some (mkDimDateRow d)) = [] := by
      rw [List.filterMap_eq_nil_iff]
      intro d hd
      rw [if_pos (hkeys d hd)]
    rw [hnil]
    simp

/-- Witness for C8 at a concrete range: the year 2024 alone, against the
empty target; the range hypotheses and the leap-day instance are
discharged by computation. -/
theorem spec_c8_witness :
    (1 ≤ 2024 ∧ 2024 ≤ 2024) ∧
    ((emptyTarget.dim_date.map (fun r => r.date_key)).contains
        (Date.key ⟨2024, 2, 29⟩) = false →
      (load_dim_date emptyTarget 2024 2024).dim_date.filter
        (fun r => r.date_key == Date.key ⟨2024, 2, 29⟩) =
        [mkDimDateRow ⟨2024, 2, 29⟩]) ∧
    ((mkDimDateRow ⟨2024, 2, 29⟩).is_weekend = true ↔
      (Date.dayOfWeek ⟨2024, 2, 29⟩ = 5 ∨ Date.dayOfWeek ⟨2024, 2, 29⟩ = 6)) :=
  ⟨⟨by decide, by decide⟩,
   ((spec_c8_calendar_generation emptyTarget 2024 2024 (by decide) (by decide)).1
     ⟨2024, 2, 29⟩ (by decide) (by decide) (by decide)).1,
   (spec_c8_calendar_generation emptyTarget 2024 2024 (by decide) (by decide)).2.1
     ⟨2024, 2, 29⟩⟩

/-! ## Claim C2 -/

/-- C2: when the wall clock `now1` of the first run is at or past every
source-side `last_update` (no source change happens between runs),
running `incremental_load` a second time — at any later or earlier clock
`now2` — returns the target state of the first run unchanged (every
table's rows, hence row counts and content, and the watermarks), and each
of the second run's five dimension and two fact synchronizers extracts
zero changed rows. -/
theorem spec_c2_incremental_idempotence (src : Source) (t : Target)
    (now1 now2 : Nat) (hq : sourceQuiescedBy src now1) :
    incremental_load src (incremental_load src t now1) now2 =
      incremental_load src t now1 ∧
    filmChanges src (incremental_load src t now1) = [] ∧
    customerChanges src (incremental_load src t now1) = [] ∧
    storeChanges src (incremental_load src t now1) = [] ∧
    actorChanges src (incremental_load src t now1) = [] ∧
    categoryChanges src (incremental_load src t now1) = [] ∧
    rentalChanges src (incremental_load src t now1) = [] ∧
    paymentChanges src (incremental_load src t now1) = [] := by
  obtain ⟨q1, q2, q3, q4, q5, q6, q7⟩ := hq
  have hF := filmChanges_after_incremental src t now1 q1
  have hC := customerChanges_after_incremental src t now1 q2
  have hS := storeChanges_after_incremental src t now1 q3
  have hA := actorChanges_after_incremental src t now1 q4
  have hK := categoryChanges_after_incremental src t now1 q5
  have hR := rentalChanges_after_incremental src t now1 q6
  have hP := paymentChanges_after_incremental src t now1 q7
  refine ⟨?_, hF, hC, hS, hA, hK, hR, hP⟩
  have h1 := sync_dim_film_of_empty src (incremental_load src t now1) now2 hF
  have h2 := sync_dim_customer_of_empty src (incremental_load src t now1) now2 hC
  have h3 := sync_dim_store_of_empty src (incremental_load src t now1) now2 hS
  have h4 := sync_dim_actor_of_empty src (incremental_load src t now1) now2 hA
  have h5 := sync_dim_category_of_empty src (incremental_load src t now1) now2 hK
  have h6 := sync_fact_rental_of_empty src (incremental_load src t now1) now2 hR
  have h7 := sync_fact_payment_of_empty src (incremental_load src t now1) now2 hP
  have hout : incremental_load src (incremental_load src t now1) now2 =
      sync_bridge_tables src
        (sync_fact_payment src
          (sync_fact_rental src
            (sync_dim_category src
              (sync_dim_actor src
                (sync_dim_store src
                  (sync_dim_customer src
                    (sync_dim_film src (incremental_load src t now1) now2)
                    now2) now2) now2) now2) now2) now2) := rfl
  rw [hout, h1, h2, h3, h4, h5, h6, h7]
  exact sync_bridge_tables_idem src
    (sync_fact_payment src
      (sync_fact_rental src
        (sync_dim_category src
          (sync_dim_actor src
            (sync_dim_store src
              (sync_dim_customer src
                (sync_dim_film src t now1) now1) now1) now1) now1) now1) now1)

/-- Witness for C2: an empty source is quiesced by any clock; the second
incremental load at clock 7 returns the first run's state (at clock 3)
unchanged. -/
theorem spec_c2_witness :
    sourceQuiescedBy emptySource 3 ∧
    incremental_load emptySource (incremental_load emptySource emptyTarget 3) 7 =
      incremental_load emptySource emptyTarget 3 :=
  ⟨by decide,
   (spec_c2_incremental_idempotence emptySource emptyTarget 3 7 (by decide)).1⟩

/-! ## Claim C9 -/

theorem mkCheckLine_status_iff (n : String) (a b : Nat) :
    (mkCheckLine n a b).status = "OK" ↔ a = b := by
  by_cases h : a = b <;> simp [mkCheckLine, h]

/-- C9: the validator compares, for each of the seven entity pairs (five
dimensions, two facts), the source row count against the target row count
and reports OK exactly when they are equal; it separately reports OK on
revenue exactly when the absolute difference of the two payment-amount
sums is below the fixed tolerance 0.01; it is a pure report over the two
stores (the embedding returns only a `ValidationReport`, no store
mutation), and all seven lines plus the revenue line are always present —
no FAIL stops the remaining comparisons. -/
theorem spec_c9_validator (src : Source) (t : Target) :
    ((validate_data src t).checks.map (fun c => (c.name, c.srcCount, c.tgtCount)) =
      [("Films", src.films.length, t.dim_film.length),
       ("Customers", src.customers.length, t.dim_customer.length),
       ("Stores", src.stores.length, t.dim_store.length),
       ("Actors", src.actors.length, t.dim_actor.length),
       ("Categories", src.categories.length, t.dim_category.length),
       ("Rentals", src.rentals.length, t.fact_rental.length),
       ("Payments", src.payments.length, t.fact_payment.length)]) ∧
    (∀ c ∈ (validate_data src t).checks, (c.status = "OK" ↔ c.srcCount = c.tgtCount)) ∧
    ((validate_data src t).checks.length = 7) ∧
    ((validate_data src t).src_revenue = (src.payments.map (fun p => p.amount)).sum) ∧
    ((validate_data src t).tgt_revenue = (t.fact_payment.map (fun f => f.amount)).sum) ∧
    ((validate_data src t).revenue_status = "OK" ↔
      |(src.payments.map (fun p => p.amount)).sum -
        (t.fact_payment.map (fun f => f.amount)).sum| < 1 / 100) := by
  refine ⟨rfl, ?_, rfl, rfl, rfl, ?_⟩
  · intro c hc
    have hc2 : c = mkCheckLine "Films" src.films.length t.dim_film.length ∨
        c = mkCheckLine "Customers" src.customers.length t.dim_customer.length ∨
        c = mkCheckLine "Stores" src.stores.length t.dim_store.length ∨
        c = mkCheckLine "Actors" src.actors.length t.dim_actor.length ∨
        c = mkCheckLine "Categories" src.categories.length t.dim_category.length ∨
        c = mkCheckLine "Rentals" src.rentals.length t.fact_rental.length ∨
        c = mkCheckLine "Payments" src.payments.length t.fact_payment.length := by
      simpa [validate_data] using hc
    rcases hc2 with rfl | rfl | rfl | rfl | rfl | rfl | rfl <;>
      exact mkCheckLine_status_iff _ _ _
  · by_cases h : |(src.payments.map (fun p => p.amount)).sum -
        (t.fact_payment.map (fun f => f.amount)).sum| < 1 / 100 <;>
      simp [validate_data, h]

end ORMSync
